import Mathlib

/-
  Verification development for the batch video generation service
  (job scheduler + credit ledger reconciliation subsystem).

  The definitions below are a shallow embedding of the Python source:
    - server/models.py      (data model: Batch, Task, CreditTransaction, IdempotencyKey)
    - server/pricing.py     (get_unit_cost)
    - server/queue.py       (AsyncTaskExecutor: _worker_loop, _execute_task, _execute_once)
    - server/app.py         (create_batch, list_tasks sweep, retry/cancel/delete, _get_user_credits)
    - server/batch_utils.py (recompute_batch_counters)
    - server/rate_limit.py  (PerUserRateLimiter.allow_new_batch)
    - server/providers/yunwu_client.py (query_task status mapping)

  Database rows are lists of records; machine time is an Int (seconds);
  the asynchronous execution units of queue.py are modelled as explicit
  interleaved atomic steps (claim, pre-call cancellation check, outcome
  write), matching the await/commit boundaries of the source.
-/

namespace BatchVideo

/-- Task status enumeration, from models.TaskStatus. -/
inductive TaskStatus where
  | pending
  | queued
  | running
  | completed
  | failed
  | cancelled
deriving DecidableEq

/-- Task row, from models.Task (fields relevant to the scheduler and ledger). -/
structure Task where
  id : Nat
  batch_id : Nat
  user_id : Nat
  prompt : String
  model : String
  orientation : String
  size : String
  duration : Int
  status : TaskStatus
  error_summary : Option String
  result_path : Option String
  deleted_at : Option Int
  updated_at : Int
deriving DecidableEq

/-- Batch row, from models.Batch. -/
structure Batch where
  id : Nat
  user_id : Nat
  prompt : String
  model : String
  orientation : String
  size : String
  duration : Int
  num_videos : Nat
  total : Nat
  completed : Nat
  failed : Nat
  running : Nat
  queued : Nat
  deleted_at : Option Int
deriving DecidableEq

/-- CreditTransaction row, from models.CreditTransaction. Append-only ledger. -/
structure CreditTransaction where
  user_id : Nat
  delta : Int
  reason : String
  ref_batch_id : Option Nat
  ref_task_id : Option Nat
deriving DecidableEq

/-- IdempotencyKey row, from models.IdempotencyKey. -/
structure IdempotencyKey where
  key : String
  user_id : Nat
  created_at : Int
  batch_id : Option Nat
deriving DecidableEq

/-- The durable store: the four tables of the ledger store. -/
structure Store where
  batches : List Batch
  tasks : List Task
  txns : List CreditTransaction
  idem_keys : List IdempotencyKey
deriving DecidableEq

/-- db.get(Task, task_id): first task row with the given id. -/
def getTask (s : Store) (tid : Nat) : Option Task :=
  s.tasks.find? (fun t => t.id == tid)

/-- db.get(Batch, batch_id): first batch row with the given id. -/
def getBatch (s : Store) (bid : Nat) : Option Batch :=
  s.batches.find? (fun b => b.id == bid)

/-- ORM row update: apply f to every task row whose id matches. -/
def updateTask (s : Store) (tid : Nat) (f : Task → Task) : Store :=
  { s with tasks := s.tasks.map (fun t => if t.id == tid then f t else t) }

/-- app._get_user_credits: balance is the sum of delta over the user transactions. -/
def get_user_credits (s : Store) (uid : Nat) : Int :=
  ((s.txns.filter (fun t => t.user_id == uid)).map (fun t => t.delta)).sum

/-- Python str.lower() for the ASCII provider strings, modelled per code point. -/
def py_lower (s : String) : String :=
  String.mk (s.data.map Char.toLower)

/-- Python str.replace(" ", "-"): single-character replacement per code point. -/
def py_space_to_dash (s : String) : String :=
  String.mk (s.data.map (fun c => if c = ' ' then '-' else c))

/-- Python str.strip(): drop whitespace from both ends. -/
def py_strip (s : String) : String :=
  String.mk (((s.data.dropWhile Char.isWhitespace).reverse.dropWhile Char.isWhitespace).reverse)

/-- Python slicing s[:n] by code points. -/
def py_take (s : String) (n : Nat) : String :=
  String.mk (s.data.take n)

/-- pricing.PRICING: model and duration to credit cost. -/
def PRICING : List (String × List (Int × Int)) :=
  [("sora-2-all", [(10, 10), (15, 15)]),
   ("sora-2-pro-all", [(10, 50), (15, 75), (25, 100)])]

/-- pricing.VEO_PRICING: resolution priced models. -/
def VEO_PRICING : List (String × List (String × Int)) :=
  [("veo_3_1", [("720p", 10), ("1080p", 50), ("4k", 100)])]

/-- pricing.get_unit_cost(model, duration, size=None). The size argument is
optional in the source and defaults to None; call sites that omit it pass
none here. -/
def get_unit_cost (model : String) (duration : Int) (size : Option String) : Int :=
  match List.lookup model VEO_PRICING with
  | some table => (size.bind (fun sz => List.lookup sz table)).getD 50
  | none => ((List.lookup model PRICING).bind (fun table => List.lookup duration table)).getD 15

/-- providers.types.RemoteTaskStatus. -/
inductive RemoteTaskStatus where
  | pending
  | queued
  | in_progress
  | completed
  | failed
  | cancelled
deriving DecidableEq

/-- The status_mapping dict of yunwu_client.query_task. -/
def STATUS_MAPPING : List (String × String) :=
  [("success", "completed"),
   ("failed", "failed"),
   ("failure", "failed"),
   ("error", "failed"),
   ("completed", "completed"),
   ("in-progress", "in-progress"),
   ("in_progress", "in-progress"),
   ("processing", "in-progress"),
   ("pending", "pending"),
   ("queued", "queued")]

/-- RemoteTaskStatus(value): the string to enum constructor, none on an invalid value. -/
def remote_status_of_string : String → Option RemoteTaskStatus
  | "pending" => some .pending
  | "queued" => some .queued
  | "in-progress" => some .in_progress
  | "completed" => some .completed
  | "failed" => some .failed
  | "cancelled" => some .cancelled
  | _ => none

/-- Status extraction and mapping pipeline of yunwu_client.query_task: the raw
provider string is lowercased on extraction, spaces are replaced by dashes at
lookup, and unknown keys fall back to the in-progress value. -/
def query_status_of (raw : String) : Option RemoteTaskStatus :=
  let status_raw := py_lower raw
  let status := (List.lookup (py_space_to_dash status_raw) STATUS_MAPPING).getD "in-progress"
  remote_status_of_string status

/-- Configurable values of settings.py used by the modelled subsystem. -/
structure Settings where
  GLOBAL_CONCURRENCY : Int
  PER_USER_CONCURRENCY : Int
  MAX_BATCHES_PER_USER_PER_MINUTE : Nat
  IDEMPOTENCY_WINDOW_SECONDS : Int
deriving DecidableEq

/-- One in-flight execution unit spawned by the worker loop (queue.py
_execute_task). The issued flag records whether the remote call has been
issued, that is whether _execute_once is past its pre-call cancellation
check. -/
structure ExecUnit where
  task_id : Nat
  user_id : Nat
  issued : Bool
deriving DecidableEq

/-- Whole-system state: the durable store plus the volatile scheduler state of
AsyncTaskExecutor (FIFO queue of task ids, the two concurrency counters) and
the in-memory per-user rate limiter history. next_id generates fresh row ids
(the source uses random uuids; freshness is all that matters). -/
structure Sys where
  store : Store
  queue : List Nat
  global_running : Int
  user_running : List (Nat × Int)
  execs : List ExecUnit
  rate_events : List (Nat × List Int)
  next_id : Nat
deriving DecidableEq

/-- Read of the defaultdict counter self.user_running[uid]. -/
def getCount (l : List (Nat × Int)) (uid : Nat) : Int :=
  (List.lookup uid l).getD 0

/-- Counter increment or decrement by d for one user. -/
def bumpCount (l : List (Nat × Int)) (uid : Nat) (d : Int) : List (Nat × Int) :=
  (uid, getCount l uid + d) :: l

/-- The duplicate-refund guard used by queue._execute_task and the
list_tasks sweep: an existing transaction with the same user, the same
ref_task_id and delta greater than zero. -/
def has_positive_refund (txns : List CreditTransaction) (uid tid : Nat) : Bool :=
  txns.any (fun c => c.user_id == uid && c.ref_task_id == some tid && decide (0 < c.delta))

/-- Guarded refund insertion shared by both refund paths: check then append. -/
def add_refund (txns : List CreditTransaction) (uid tid bid : Nat) (amount : Int) :
    List CreditTransaction :=
  if has_positive_refund txns uid tid then txns
  else txns ++ [{ user_id := uid, delta := amount, reason := "refund_task:" ++ toString tid,
                  ref_batch_id := some bid, ref_task_id := some tid }]

/-- batch_utils.recompute_batch_counters: recount the non-deleted child tasks
of the batch grouped by status and overwrite the stored aggregates. The
queued counter also absorbs pending, and total is the sum of the four
counters. -/
def recompute_batch_counters (s : Store) (bid : Nat) : Store :=
  let children := s.tasks.filter (fun t => t.batch_id == bid && t.deleted_at == none)
  let c := fun (st : TaskStatus) => (children.filter (fun t => t.status == st)).length
  match getBatch s bid with
  | none => s
  | some _ =>
      { s with batches := s.batches.map (fun b =>
          if b.id == bid then
            { b with
              completed := c .completed,
              failed := c .failed,
              running := c .running,
              queued := c .queued + c .pending,
              total := c .completed + c .failed + c .running + (c .queued + c .pending) }
          else b) }

/-- Filter of the conditional claim: the row with the given id whose current
status is still pending or queued. -/
def claim_eligible (tid : Nat) (t : Task) : Bool :=
  t.id == tid && (t.status == TaskStatus.pending || t.status == TaskStatus.queued)

/-- The atomic claim of queue._worker_loop: set status to running only where
the current status is pending or queued, returning the updated store and the
number of affected rows. -/
def claim_update (s : Store) (tid : Nat) (now : Int) : Store × Nat :=
  ({ s with tasks := s.tasks.map (fun t =>
      if claim_eligible tid t then { t with status := TaskStatus.running, updated_at := now }
      else t) },
   (s.tasks.filter (claim_eligible tid)).length)

/-- One pass of the body of queue._worker_loop: inspect the queue head, check
the two concurrency caps without removing the head, then attempt the atomic
claim; the loser of a claim race only pops the head. On a successful claim
the task is popped, the counters rise and an execution unit starts. -/
def worker_tick (cfg : Settings) (sys : Sys) (now : Int) : Sys :=
  match sys.queue with
  | [] => sys
  | tid :: rest =>
    match getTask sys.store tid with
    | none => { sys with queue := rest }
    | some task =>
      let uid := task.user_id
      if cfg.GLOBAL_CONCURRENCY ≤ sys.global_running then sys
      else if cfg.PER_USER_CONCURRENCY ≤ getCount sys.user_running uid then sys
      else
        let claimed := claim_update sys.store tid now
        if claimed.2 = 0 then
          { sys with store := claimed.1, queue := rest }
        else
          { sys with
            store := claimed.1,
            queue := rest,
            global_running := sys.global_running + 1,
            user_running := bumpCount sys.user_running uid 1,
            execs := sys.execs ++ [{ task_id := tid, user_id := uid, issued := false }] }

/-- Execution unit teardown: the finally block of queue._execute_task
decrements both counters; the unit itself ends. -/
def finish_exec (sys : Sys) (e : ExecUnit) : Sys :=
  { sys with
    execs := sys.execs.erase e,
    global_running := sys.global_running - 1,
    user_running := bumpCount sys.user_running e.user_id (-1) }

/-- Start of queue._execute_once: fetch the task and check for cooperative
cancellation once, before the remote call; if the stored status is already
cancelled the unit exits without calling the provider and without writing,
otherwise the remote call is issued. -/
def exec_cancel_check (sys : Sys) (e : ExecUnit) : Sys :=
  match getTask sys.store e.task_id with
  | none => finish_exec sys e
  | some task =>
    if task.status = TaskStatus.cancelled then finish_exec sys e
    else { sys with execs := sys.execs.erase e ++ [{ e with issued := true }] }

/-- Successful completion write of queue._execute_once: store the result
locator, mark the task completed and recompute the batch counters, then tear
the unit down. -/
def exec_success (sys : Sys) (e : ExecUnit) (url : String) (now : Int) : Sys :=
  match getTask sys.store e.task_id with
  | none => finish_exec sys e
  | some task =>
    let st := updateTask sys.store e.task_id (fun t =>
      { t with result_path := some url, status := TaskStatus.completed, updated_at := now })
    let st := recompute_batch_counters st task.batch_id
    finish_exec { sys with store := st } e

/-- Failure handler of queue._execute_task: mark the task failed with a
truncated error summary, then attempt the refund. The unit cost is looked up
as get_unit_cost(task.model, task.duration) with no size argument, exactly as
in the source. -/
def exec_failure (sys : Sys) (e : ExecUnit) (msg : String) (now : Int) : Sys :=
  match getTask sys.store e.task_id with
  | none => finish_exec sys e
  | some task =>
    let st := updateTask sys.store e.task_id (fun t =>
      { t with status := TaskStatus.failed, error_summary := some (py_take msg 500),
               updated_at := now })
    let unit_cost := get_unit_cost task.model task.duration none
    let st := { st with txns := add_refund st.txns task.user_id e.task_id task.batch_id unit_cost }
    let st := recompute_batch_counters st task.batch_id
    finish_exec { sys with store := st } e

/-- Python truthiness of a nullable string: the expression a or b. -/
def py_or_str (v : Option String) (dflt : String) : String :=
  match v with
  | some s => if s = "" then dflt else s
  | none => dflt

/-- Per-task body of the corrective loop in app.list_tasks: heal a task that
has a result locator but is not completed, then sweep a task stale in running
for more than 1800 seconds to failed and attempt the timeout refund (this
path passes the task size to get_unit_cost). The Bool tracks the changed
flag. -/
def sweep_one (now : Int) (acc : Store × Bool) (tid : Nat) : Store × Bool :=
  let s := acc.1
  let changed := acc.2
  match getTask s tid with
  | none => (s, changed)
  | some t0 =>
    let healed : Store × Task × Bool :=
      if t0.result_path ≠ none ∧ t0.status ≠ TaskStatus.completed then
        (updateTask s tid (fun x => { x with status := TaskStatus.completed, updated_at := now }),
         { t0 with status := TaskStatus.completed, updated_at := now }, true)
      else (s, t0, changed)
    let s1 := healed.1
    let t1 := healed.2.1
    let changed1 := healed.2.2
    if t1.status = TaskStatus.running ∧ 1800 < now - t1.updated_at then
      let s2 := updateTask s1 tid (fun x =>
        { x with status := TaskStatus.failed,
                 error_summary := some (py_or_str x.error_summary "运行超时"),
                 updated_at := now })
      let unit_cost := get_unit_cost t1.model t1.duration (some t1.size)
      (({ s2 with txns := add_refund s2.txns t1.user_id tid t1.batch_id unit_cost }), true)
    else (s1, changed1)

/-- Reconciliation pass of app.list_tasks over one batch: apply the two
corrective rules to every non-deleted child task in creation order, then
recompute the batch counters when anything changed. -/
def list_tasks_sweep (s : Store) (bid : Nat) (now : Int) : Store :=
  let children := (s.tasks.filter (fun t => t.batch_id == bid && t.deleted_at == none)).map
    (fun t => t.id)
  let swept := children.foldl (sweep_one now) (s, false)
  if swept.2 then recompute_batch_counters swept.1 bid else swept.1

/-- app.cancel_task: cancel an owned task whose status is pending, queued or
running, then recompute the batch counters. -/
def cancel_task (s : Store) (tid uid : Nat) (now : Int) : Store :=
  match getTask s tid with
  | none => s
  | some t =>
    if t.user_id = uid ∧
        (t.status = TaskStatus.pending ∨ t.status = TaskStatus.queued ∨
         t.status = TaskStatus.running) then
      recompute_batch_counters
        (updateTask s tid (fun x => { x with status := TaskStatus.cancelled, updated_at := now }))
        t.batch_id
    else s

/-- app.retry_task: requeue an owned failed task, clearing its error, then
recompute counters and re-enqueue the task id. -/
def retry_task (sys : Sys) (tid uid : Nat) (now : Int) : Sys :=
  match getTask sys.store tid with
  | none => sys
  | some t =>
    if t.user_id = uid ∧ t.status = TaskStatus.failed then
      let st := updateTask sys.store tid (fun x =>
        { x with status := TaskStatus.queued, error_summary := none, updated_at := now })
      { sys with store := recompute_batch_counters st t.batch_id, queue := sys.queue ++ [tid] }
    else sys

/-- app.delete_task: soft delete an owned task, cancelling it when still
pending or queued, then recompute the batch counters. -/
def delete_task (s : Store) (tid uid : Nat) (now : Int) : Store :=
  match getTask s tid with
  | none => s
  | some t =>
    if t.user_id = uid then
      recompute_batch_counters
        (updateTask s tid (fun x =>
          { x with deleted_at := some now,
                   status := if x.status = TaskStatus.pending ∨ x.status = TaskStatus.queued
                             then TaskStatus.cancelled else x.status,
                   updated_at := now }))
        t.batch_id
    else s

/-- app.delete_batch: soft delete an owned batch and all its child tasks,
cancelling children still pending or queued. The source performs no counter
recompute here. -/
def delete_batch (s : Store) (bid uid : Nat) (now : Int) : Store :=
  match getBatch s bid with
  | none => s
  | some b =>
    if b.user_id = uid then
      { s with
        batches := s.batches.map (fun x =>
          if x.id == bid then { x with deleted_at := some now } else x),
        tasks := s.tasks.map (fun t =>
          if t.batch_id == bid then
            { t with deleted_at := some now,
                     status := if t.status = TaskStatus.pending ∨ t.status = TaskStatus.queued
                               then TaskStatus.cancelled else t.status,
                     updated_at := now }
          else t) }
    else s

/-- app.admin adjust_credits and the other plain ledger appends
(new_user_gift, recharge): a transaction with no task reference. A zero delta
is rejected by adjust_credits; grants from payment or gift paths pass reason
tags of their own. -/
def adjust_credits (s : Store) (uid : Nat) (delta : Int) (reason : String)
    (refBatch : Option Nat) : Store :=
  if delta = 0 then s
  else { s with txns := s.txns ++ [{ user_id := uid, delta := delta, reason := reason,
                                     ref_batch_id := refBatch, ref_task_id := none }] }

/-- Request body of POST /api/batches, from schemas.BatchCreateRequest. -/
structure BatchCreateRequest where
  prompt : String
  model : String
  orientation : String
  size : String
  duration : Int
  num_videos : Nat
deriving DecidableEq

/-- Outcome of the batch submission endpoint. -/
inductive ApiResult where
  | ok (batch_id : Nat)
  | err (msg : String)
deriving DecidableEq

/-- Per-model duration and size allow-list check of app.create_batch. -/
def model_constraints_ok (model : String) (duration : Int) (size : String) : Bool :=
  if model == "sora-2-all" then
    (duration == 10 || duration == 15) && size == "small"
  else if model == "sora-2-pro-all" then
    (duration == 10 || duration == 15 || duration == 25) && size == "large"
  else if model == "veo_3_1" then
    duration == 8 && (size == "720p" || size == "1080p" || size == "4k")
  else false

/-- The tasks-table CHECK constraint ck_duration_values of models.py
(CheckConstraint "duration IN (5, 10, 15, 25)", reaffirmed by both migration
scripts): a task row can only be inserted with one of these durations. -/
def duration_check_ok (d : Int) : Bool :=
  d == 5 || d == 10 || d == 15 || d == 25

/-- Admission tail of app.create_batch after validation, rate limiting and the
idempotency replay check: price the batch, reject on insufficient balance,
persist the batch, record the idempotency key, write the single debit, create
the tasks in queued status, enqueue them and recompute the counters. When the
requested duration violates the tasks-table CHECK constraint ck_duration_values,
the first per-task db.flush() raises IntegrityError: the handler aborts with the
batch, idempotency key and debit already committed, and the session rollback
discards every uncommitted task row, so no task exists and nothing is
enqueued. -/
def create_batch_core (sys : Sys) (uid : Nat) (req : BatchCreateRequest) (prompt : String)
    (idem : Option String) (now : Int) : Sys × ApiResult :=
  if ¬ model_constraints_ok req.model req.duration req.size then (sys, .err "unsupported model config")
  else
    let unit_cost := get_unit_cost req.model req.duration (some req.size)
    let total_cost := unit_cost * req.num_videos
    if get_user_credits sys.store uid < total_cost then (sys, .err "INSUFFICIENT_CREDITS")
    else
      let bid := sys.next_id
      let batch : Batch :=
        { id := bid, user_id := uid, prompt := prompt, model := req.model,
          orientation := req.orientation, size := req.size, duration := req.duration,
          num_videos := req.num_videos, total := req.num_videos,
          completed := 0, failed := 0, running := 0, queued := 0, deleted_at := none }
      let st : Store := { sys.store with batches := sys.store.batches ++ [batch] }
      let st : Store :=
        match idem with
        | some k => { st with idem_keys := st.idem_keys ++
            [{ key := k, user_id := uid, created_at := now, batch_id := some bid }] }
        | none => st
      let st : Store := { st with txns := st.txns ++
        [{ user_id := uid, delta := -total_cost, reason := "deduct_for_batch:" ++ toString bid,
           ref_batch_id := some bid, ref_task_id := none }] }
      if duration_check_ok req.duration then
        let tids := (List.range req.num_videos).map (fun i => bid + 1 + i)
        let st : Store := { st with tasks := st.tasks ++ tids.map (fun tid =>
          ({ id := tid, batch_id := bid, user_id := uid, prompt := prompt, model := req.model,
             orientation := req.orientation, size := req.size, duration := req.duration,
             status := TaskStatus.queued, error_summary := none, result_path := none,
             deleted_at := none, updated_at := now } : Task)) }
        let st := recompute_batch_counters st bid
        ({ sys with store := st, queue := sys.queue ++ tids, next_id := bid + 1 + req.num_videos },
         .ok bid)
      else
        ({ sys with store := st, next_id := bid + 1 },
         .err "IntegrityError: ck_duration_values")

/-- app.create_batch: request validation (the num_videos bound is enforced by
the schema), the per-user sliding-window rate limiter of rate_limit.py, then
the idempotency replay lookup keyed on the key alone, and finally the
admission tail. -/
def create_batch (cfg : Settings) (sys : Sys) (uid : Nat) (req : BatchCreateRequest)
    (idem : Option String) (now : Int) : Sys × ApiResult :=
  if req.num_videos = 0 ∨ 50 < req.num_videos then (sys, .err "invalid num_videos")
  else
    let prompt := py_strip req.prompt
    if prompt = "" then (sys, .err "prompt required")
    else if 10000 < prompt.length then (sys, .err "prompt too long")
    else
      let dq := ((List.lookup uid sys.rate_events).getD []).dropWhile (fun ts => 60 < now - ts)
      if cfg.MAX_BATCHES_PER_USER_PER_MINUTE ≤ dq.length then
        ({ sys with rate_events := (uid, dq) :: sys.rate_events }, .err "rate limited")
      else
        let sys := { sys with rate_events := (uid, dq ++ [now]) :: sys.rate_events }
        match idem with
        | some k =>
          match sys.store.idem_keys.find? (fun e => e.key == k) with
          | some e =>
            if now - cfg.IDEMPOTENCY_WINDOW_SECONDS < e.created_at then
              match e.batch_id with
              | some bid =>
                match getBatch sys.store bid with
                | some b => (sys, .ok b.id)
                | none => (sys, .err "duplicate submission")
              | none => (sys, .err "duplicate submission")
            else create_batch_core sys uid req prompt idem now
          | none => create_batch_core sys uid req prompt idem now
        | none => create_batch_core sys uid req prompt idem now

/-- Lift of store-only endpoints to system steps. -/
def liftStore (sys : Sys) (f : Store → Store) : Sys :=
  { sys with store := f sys.store }

/-- A step of the whole system: one atomic operation of the server, scheduler
or an execution unit, at the await and commit granularity of the source. -/
inductive Step (cfg : Settings) : Sys → Sys → Prop where
  | createBatch (sys : Sys) (uid : Nat) (req : BatchCreateRequest) (idem : Option String)
      (now : Int) : Step cfg sys (create_batch cfg sys uid req idem now).1
  | tick (sys : Sys) (now : Int) : Step cfg sys (worker_tick cfg sys now)
  | checkCancel (sys : Sys) (e : ExecUnit) (he : e ∈ sys.execs) (hi : e.issued = false) :
      Step cfg sys (exec_cancel_check sys e)
  | execOk (sys : Sys) (e : ExecUnit) (url : String) (now : Int) (he : e ∈ sys.execs)
      (hi : e.issued = true) : Step cfg sys (exec_success sys e url now)
  | execFail (sys : Sys) (e : ExecUnit) (msg : String) (now : Int) (he : e ∈ sys.execs)
      (hi : e.issued = true) : Step cfg sys (exec_failure sys e msg now)
  | cancel (sys : Sys) (tid uid : Nat) (now : Int) :
      Step cfg sys (liftStore sys (fun s => cancel_task s tid uid now))
  | retry (sys : Sys) (tid uid : Nat) (now : Int) : Step cfg sys (retry_task sys tid uid now)
  | deleteTask (sys : Sys) (tid uid : Nat) (now : Int) :
      Step cfg sys (liftStore sys (fun s => delete_task s tid uid now))
  | deleteBatch (sys : Sys) (bid uid : Nat) (now : Int) :
      Step cfg sys (liftStore sys (fun s => delete_batch s bid uid now))
  | sweep (sys : Sys) (bid : Nat) (now : Int) :
      Step cfg sys (liftStore sys (fun s => list_tasks_sweep s bid now))
  | adjust (sys : Sys) (uid : Nat) (delta : Int) (reason : String) (refBatch : Option Nat) :
      Step cfg sys (liftStore sys (fun s => adjust_credits s uid delta reason refBatch))

/-- The empty initial system: fresh store, empty queue, zero counters. -/
def initSys : Sys :=
  { store := { batches := [], tasks := [], txns := [], idem_keys := [] },
    queue := [], global_running := 0, user_running := [], execs := [], rate_events := [],
    next_id := 0 }

/-- States reachable from the initial system by server steps. -/
inductive Reachable (cfg : Settings) : Sys → Prop where
  | init : Reachable cfg initSys
  | step {s s' : Sys} : Reachable cfg s → Step cfg s s' → Reachable cfg s'

/- ------------------------------------------------------------------ -/
/- Helper lemmas about the store primitives.                           -/
/- ------------------------------------------------------------------ -/

theorem getTask_updateTask (s : Store) (tid : Nat) (f : Task → Task)
    (hid : ∀ t, (f t).id = t.id) (tid' : Nat) :
    getTask (updateTask s tid f) tid' =
      (getTask s tid').map (fun t => if t.id == tid then f t else t) := by
  unfold getTask updateTask
  have hp : ((fun t : Task => t.id == tid') ∘ (fun t => if t.id == tid then f t else t))
      = (fun t : Task => t.id == tid') := by
    funext t
    simp only [Function.comp_apply]
    by_cases h : t.id = tid
    · simp [h, hid]
    · simp [h]
  rw [List.find?_map, hp]

theorem getTask_updateTask_self {s : Store} {tid : Nat} {t : Task} (f : Task → Task)
    (hid : ∀ t, (f t).id = t.id) (h : getTask s tid = some t) :
    getTask (updateTask s tid f) tid = some (f t) := by
  have h2 : s.tasks.find? (fun x => x.id == tid) = some t := h
  have hb := List.find?_some h2
  rw [getTask_updateTask s tid f hid tid, h]
  simp only [Option.map]
  rw [if_pos hb]

theorem recompute_tasks (s : Store) (bid : Nat) :
    (recompute_batch_counters s bid).tasks = s.tasks := by
  unfold recompute_batch_counters
  split <;> rfl

theorem recompute_txns (s : Store) (bid : Nat) :
    (recompute_batch_counters s bid).txns = s.txns := by
  unfold recompute_batch_counters
  split <;> rfl

theorem recompute_idem_keys (s : Store) (bid : Nat) :
    (recompute_batch_counters s bid).idem_keys = s.idem_keys := by
  unfold recompute_batch_counters
  split <;> rfl

theorem getTask_recompute (s : Store) (bid tid : Nat) :
    getTask (recompute_batch_counters s bid) tid = getTask s tid := by
  unfold getTask
  rw [recompute_tasks]

/- ------------------------------------------------------------------ -/
/- Claim C9: provider status string mapping.                           -/
/- ------------------------------------------------------------------ -/

theorem rsos_completed : remote_status_of_string "completed" = some RemoteTaskStatus.completed := rfl

theorem rsos_failed : remote_status_of_string "failed" = some RemoteTaskStatus.failed := rfl

theorem rsos_in_progress :
    remote_status_of_string "in-progress" = some RemoteTaskStatus.in_progress := rfl

theorem rsos_pending : remote_status_of_string "pending" = some RemoteTaskStatus.pending := rfl

theorem rsos_queued : remote_status_of_string "queued" = some RemoteTaskStatus.queued := rfl

/-- Claim C9: the provider status mapping of yunwu_client.query_task yields a
terminal status only for recognized strings; every string whose normalized
form is not a key of the mapping table maps to in-progress, and no provider
string ever maps to the cancelled status. -/
theorem provider_status_safe (raw : String) :
    query_status_of raw ≠ some RemoteTaskStatus.cancelled ∧
    ((query_status_of raw = some RemoteTaskStatus.completed ∨
      query_status_of raw = some RemoteTaskStatus.failed) →
      py_space_to_dash (py_lower raw) ∈
        (["success", "failed", "failure", "error", "completed"] : List String)) ∧
    (List.lookup (py_space_to_dash (py_lower raw)) STATUS_MAPPING = none →
      query_status_of raw = some RemoteTaskStatus.in_progress) := by
  unfold query_status_of
  generalize hk : py_space_to_dash (py_lower raw) = k
  simp only [STATUS_MAPPING, List.lookup]
  repeat' split
  all_goals
    simp_all [rsos_completed, rsos_failed, rsos_in_progress, rsos_pending, rsos_queued]

/-- Concrete instantiations of C9: a recognized terminal string is in the
recognized set, and an unrecognized provider string (also the cancelled
string, absent from the table) degrades to in-progress. -/
theorem provider_status_safe_witness :
    (py_space_to_dash (py_lower "SUCCESS")) ∈
      (["success", "failed", "failure", "error", "completed"] : List String) ∧
    query_status_of "totally new status" = some RemoteTaskStatus.in_progress := by
  refine ⟨(provider_status_safe "SUCCESS").2.1 (Or.inl (by decide)), ?_⟩
  exact (provider_status_safe "totally new status").2.2 (by decide)

/- ------------------------------------------------------------------ -/
/- Claim C6: head-of-line blocking in the scheduler tick.              -/
/- ------------------------------------------------------------------ -/

/-- Claim C6: on a scheduler tick, when admitting the head task would exceed
the global cap or its owner per-user cap, the loop changes nothing: the head
stays in place and no execution unit starts, so no task behind the head can
start that tick. -/
theorem head_of_line_blocking (cfg : Settings) (sys : Sys) (now : Int) (tid : Nat)
    (rest : List Nat) (t : Task)
    (hq : sys.queue = tid :: rest)
    (ht : getTask sys.store tid = some t)
    (hcap : cfg.GLOBAL_CONCURRENCY ≤ sys.global_running ∨
            cfg.PER_USER_CONCURRENCY ≤ getCount sys.user_running t.user_id) :
    worker_tick cfg sys now = sys := by
  unfold worker_tick
  rw [hq]
  simp only [ht]
  by_cases hg : cfg.GLOBAL_CONCURRENCY ≤ sys.global_running
  · simp [hg]
  · rcases hcap with h | h
    · exact absurd h hg
    · simp [hg, h]

/-- Scenario D system: caps 1 and 1, user 10 already at its cap with the head
task of the queue, user 20 task waiting behind it. -/
def scenarioD_cfg : Settings :=
  { GLOBAL_CONCURRENCY := 1, PER_USER_CONCURRENCY := 1,
    MAX_BATCHES_PER_USER_PER_MINUTE := 10, IDEMPOTENCY_WINDOW_SECONDS := 60 }

def scenarioD_taskX : Task :=
  { id := 1, batch_id := 0, user_id := 10, prompt := "x", model := "sora-2-all",
    orientation := "portrait", size := "small", duration := 10,
    status := TaskStatus.queued, error_summary := none, result_path := none,
    deleted_at := none, updated_at := 0 }

def scenarioD_taskY : Task :=
  { id := 2, batch_id := 0, user_id := 20, prompt := "y", model := "sora-2-all",
    orientation := "portrait", size := "small", duration := 10,
    status := TaskStatus.queued, error_summary := none, result_path := none,
    deleted_at := none, updated_at := 0 }

def scenarioD_sys : Sys :=
  { store := { batches := [], tasks := [scenarioD_taskX, scenarioD_taskY], txns := [],
               idem_keys := [] },
    queue := [1, 2], global_running := 1, user_running := [(10, 1)],
    execs := [{ task_id := 0, user_id := 10, issued := true }], rate_events := [],
    next_id := 3 }

/-- Scenario D instance of C6: the tick leaves the whole system unchanged, so
the task of user 20 does not start while the head task of user 10 is blocked
at its cap. -/
theorem head_of_line_blocking_witness :
    worker_tick scenarioD_cfg scenarioD_sys 5 = scenarioD_sys :=
  head_of_line_blocking scenarioD_cfg scenarioD_sys 5 1 [2] scenarioD_taskX rfl (by decide)
    (Or.inl (by decide))

/- ------------------------------------------------------------------ -/
/- Claim C3: claim exclusivity.                                        -/
/- ------------------------------------------------------------------ -/

theorem map_id_of_forall {α : Type} (l : List α) (f : α → α) (h : ∀ x ∈ l, f x = x) :
    l.map f = l := by
  induction l with
  | nil => rfl
  | cons a l ih =>
    rw [List.map_cons, h a (by simp), ih (fun x hx => h x (by simp [hx]))]

theorem filter_single_of_nodup (l : List Task) (tid : Nat) (t : Task)
    (hnodup : (l.map Task.id).Nodup)
    (hfind : l.find? (fun x => x.id == tid) = some t)
    (q : Task → Bool)
    (hq : q t = true)
    (hqid : ∀ x, q x = true → x.id = tid) :
    l.filter q = [t] := by
  induction l with
  | nil => simp at hfind
  | cons a l ih =>
    rw [List.map_cons, List.nodup_cons] at hnodup
    rw [List.find?_cons] at hfind
    split at hfind
    next hcond =>
      have hat : a = t := by injection hfind
      subst hat
      rw [List.filter_cons_of_pos hq]
      have haid : a.id = tid := by simpa using hcond
      have hnil : ∀ x ∈ l, ¬ q x := by
        intro x hx hqx
        exact hnodup.1 (List.mem_map.2 ⟨x, hx, by rw [hqid x hqx, haid]⟩)
      rw [List.filter_eq_nil_iff.2 hnil]
    next hcond =>
      have hqa : ¬ (q a = true) := by
        intro hqa
        have : (a.id == tid) = true := by simp [hqid a hqa]
        rw [this] at hcond
        cases hcond
      rw [List.filter_cons_of_neg hqa]
      exact ih hnodup.2 hfind

theorem claim_update_snd (s : Store) (tid : Nat) (now : Int) :
    (claim_update s tid now).2 = (s.tasks.filter (claim_eligible tid)).length := rfl

theorem claim_update_fst (s : Store) (tid : Nat) (now : Int) :
    (claim_update s tid now).1 = { s with tasks := s.tasks.map (fun t =>
      if claim_eligible tid t then { t with status := TaskStatus.running, updated_at := now }
      else t) } := rfl

theorem getTask_claim_update (s : Store) (tid : Nat) (now : Int) (tid' : Nat) :
    getTask (claim_update s tid now).1 tid' =
      (getTask s tid').map (fun t =>
        if claim_eligible tid t
        then { t with status := TaskStatus.running, updated_at := now } else t) := by
  unfold getTask claim_update
  have hp : ((fun t : Task => t.id == tid') ∘ (fun t =>
      if claim_eligible tid t
      then { t with status := TaskStatus.running, updated_at := now } else t))
      = (fun t : Task => t.id == tid') := by
    funext t
    simp only [Function.comp_apply]
    by_cases h : claim_eligible tid t = true
    · rw [if_pos h]
    · rw [if_neg h]
  rw [List.find?_map, hp]

theorem claim_eligible_after_claim (s : Store) (tid : Nat) (now : Int) :
    ∀ x ∈ (claim_update s tid now).1.tasks, ¬ (claim_eligible tid x = true) := by
  intro x hx
  unfold claim_update at hx
  obtain ⟨y, _, rfl⟩ := List.mem_map.1 hx
  by_cases he : claim_eligible tid y = true
  · rw [if_pos he]
    unfold claim_eligible
    simp
  · rw [if_neg he]
    exact he

/-- Claim C3: claiming a task is the conditional update, set running only when
the current status is pending or queued, and exactly one of two claim
attempts on the same task succeeds: the first affects one row and moves it to
running, the second affects zero rows and changes nothing; a worker tick that
loses the claim only pops the head of its queue, starting no execution unit
and writing nothing else. -/
theorem claim_exclusive (s : Store) (tid : Nat) (now now2 : Int) (t : Task)
    (hnodup : (s.tasks.map Task.id).Nodup)
    (ht : getTask s tid = some t)
    (hst : t.status = TaskStatus.pending ∨ t.status = TaskStatus.queued) :
    (claim_update s tid now).2 = 1 ∧
    getTask (claim_update s tid now).1 tid =
      some { t with status := TaskStatus.running, updated_at := now } ∧
    (claim_update (claim_update s tid now).1 tid now2).2 = 0 ∧
    (claim_update (claim_update s tid now).1 tid now2).1 = (claim_update s tid now).1 ∧
    (∀ cfg sys rest, sys.store = (claim_update s tid now).1 → sys.queue = tid :: rest →
      sys.global_running < cfg.GLOBAL_CONCURRENCY →
      getCount sys.user_running t.user_id < cfg.PER_USER_CONCURRENCY →
      worker_tick cfg sys now2 = { sys with queue := rest }) := by
  have ht' : s.tasks.find? (fun x => x.id == tid) = some t := ht
  have hbid := List.find?_some ht'
  have helig : claim_eligible tid t = true := by
    unfold claim_eligible
    rcases hst with h | h <;> simp [hbid, h]
  have hqid : ∀ x, claim_eligible tid x = true → x.id = tid := by
    intro x hx
    unfold claim_eligible at hx
    simp only [Bool.and_eq_true, beq_iff_eq] at hx
    exact hx.1
  have h1 : (claim_update s tid now).2 = 1 := by
    rw [claim_update_snd, filter_single_of_nodup s.tasks tid t hnodup ht' _ helig hqid]
    rfl
  have h2 : getTask (claim_update s tid now).1 tid =
      some { t with status := TaskStatus.running, updated_at := now } := by
    rw [getTask_claim_update, ht]
    simp only [Option.map]
    rw [if_pos helig]
  have hnone := claim_eligible_after_claim s tid now
  have h3 : (claim_update (claim_update s tid now).1 tid now2).2 = 0 := by
    rw [claim_update_snd, List.filter_eq_nil_iff.2 (fun x hx => hnone x hx)]
    rfl
  have h4 : (claim_update (claim_update s tid now).1 tid now2).1 =
      (claim_update s tid now).1 := by
    rw [claim_update_fst ((claim_update s tid now).1) tid now2]
    rw [map_id_of_forall _ _ (fun x hx => if_neg (hnone x hx))]
  refine ⟨h1, h2, h3, h4, ?_⟩
  intro cfg sys rest hs hq hg hu
  unfold worker_tick
  rw [hq]
  have hgt : getTask sys.store tid =
      some { t with status := TaskStatus.running, updated_at := now } := by
    rw [hs]
    exact h2
  simp only [hgt]
  rw [if_neg (not_le.mpr hg)]
  rw [if_neg (not_le.mpr hu)]
  have h3' : (claim_update sys.store tid now2).2 = 0 := by rw [hs]; exact h3
  rw [if_pos h3']
  have h4' : (claim_update sys.store tid now2).1 = sys.store := by rw [hs]; exact h4
  rw [h4']

/-- Concrete system for the C3 witness: one queued task with id 1. -/
def c3_task : Task :=
  { id := 1, batch_id := 0, user_id := 1, prompt := "p", model := "sora-2-all",
    orientation := "portrait", size := "small", duration := 10,
    status := TaskStatus.queued, error_summary := none, result_path := none,
    deleted_at := none, updated_at := 0 }

def c3_store : Store :=
  { batches := [], tasks := [c3_task], txns := [], idem_keys := [] }

/-- Witness for C3: on the concrete store the first claim affects one row and
the second claim of the same task affects zero rows and leaves the store
unchanged. -/
theorem claim_exclusive_witness :
    (claim_update c3_store 1 0).2 = 1 ∧
    (claim_update (claim_update c3_store 1 0).1 1 7).2 = 0 ∧
    (claim_update (claim_update c3_store 1 0).1 1 7).1 = (claim_update c3_store 1 0).1 := by
  have h := claim_exclusive c3_store 1 0 7 c3_task (by decide) (by decide) (Or.inr rfl)
  exact ⟨h.1, h.2.2.1, h.2.2.2.1⟩

/- ------------------------------------------------------------------ -/
/- Claim C7: batch counter recomputation.                              -/
/- ------------------------------------------------------------------ -/

theorem status_partition (l : List Task) :
    (l.filter (fun t => t.status == TaskStatus.completed)).length
      + (l.filter (fun t => t.status == TaskStatus.failed)).length
      + (l.filter (fun t => t.status == TaskStatus.running)).length
      + ((l.filter (fun t => t.status == TaskStatus.queued)).length
          + (l.filter (fun t => t.status == TaskStatus.pending)).length)
    = (l.filter (fun t => !(t.status == TaskStatus.cancelled))).length := by
  induction l with
  | nil => rfl
  | cons a l ih =>
    cases h : a.status <;> simp [List.filter_cons, h] <;> omega

theorem getBatch_recompute_eq (s : Store) (bid : Nat) (b0 : Batch)
    (hb : getBatch s bid = some b0) :
    getBatch (recompute_batch_counters s bid) bid = some
      { b0 with
        completed := ((s.tasks.filter (fun t => t.batch_id == bid && t.deleted_at == none)).filter
          (fun t => t.status == TaskStatus.completed)).length,
        failed := ((s.tasks.filter (fun t => t.batch_id == bid && t.deleted_at == none)).filter
          (fun t => t.status == TaskStatus.failed)).length,
        running := ((s.tasks.filter (fun t => t.batch_id == bid && t.deleted_at == none)).filter
          (fun t => t.status == TaskStatus.running)).length,
        queued := ((s.tasks.filter (fun t => t.batch_id == bid && t.deleted_at == none)).filter
          (fun t => t.status == TaskStatus.queued)).length
          + ((s.tasks.filter (fun t => t.batch_id == bid && t.deleted_at == none)).filter
          (fun t => t.status == TaskStatus.pending)).length,
        total := ((s.tasks.filter (fun t => t.batch_id == bid && t.deleted_at == none)).filter
          (fun t => t.status == TaskStatus.completed)).length
          + ((s.tasks.filter (fun t => t.batch_id == bid && t.deleted_at == none)).filter
          (fun t => t.status == TaskStatus.failed)).length
          + ((s.tasks.filter (fun t => t.batch_id == bid && t.deleted_at == none)).filter
          (fun t => t.status == TaskStatus.running)).length
          + (((s.tasks.filter (fun t => t.batch_id == bid && t.deleted_at == none)).filter
          (fun t => t.status == TaskStatus.queued)).length
          + ((s.tasks.filter (fun t => t.batch_id == bid && t.deleted_at == none)).filter
          (fun t => t.status == TaskStatus.pending)).length) } := by
  have hb' : s.batches.find? (fun x => x.id == bid) = some b0 := hb
  have hbid := List.find?_some hb'
  unfold recompute_batch_counters
  rw [hb]
  unfold getBatch
  have hp : ((fun x : Batch => x.id == bid) ∘ (fun b : Batch =>
      if b.id == bid then
        { b with
          completed := ((s.tasks.filter (fun t => t.batch_id == bid && t.deleted_at == none)).filter
            (fun t => t.status == TaskStatus.completed)).length,
          failed := ((s.tasks.filter (fun t => t.batch_id == bid && t.deleted_at == none)).filter
            (fun t => t.status == TaskStatus.failed)).length,
          running := ((s.tasks.filter (fun t => t.batch_id == bid && t.deleted_at == none)).filter
            (fun t => t.status == TaskStatus.running)).length,
          queued := ((s.tasks.filter (fun t => t.batch_id == bid && t.deleted_at == none)).filter
            (fun t => t.status == TaskStatus.queued)).length
            + ((s.tasks.filter (fun t => t.batch_id == bid && t.deleted_at == none)).filter
            (fun t => t.status == TaskStatus.pending)).length,
          total := ((s.tasks.filter (fun t => t.batch_id == bid && t.deleted_at == none)).filter
            (fun t => t.status == TaskStatus.completed)).length
            + ((s.tasks.filter (fun t => t.batch_id == bid && t.deleted_at == none)).filter
            (fun t => t.status == TaskStatus.failed)).length
            + ((s.tasks.filter (fun t => t.batch_id == bid && t.deleted_at == none)).filter
            (fun t => t.status == TaskStatus.running)).length
            + (((s.tasks.filter (fun t => t.batch_id == bid && t.deleted_at == none)).filter
            (fun t => t.status == TaskStatus.queued)).length
            + ((s.tasks.filter (fun t => t.batch_id == bid && t.deleted_at == none)).filter
            (fun t => t.status == TaskStatus.pending)).length) }
      else b))
      = (fun x : Batch => x.id == bid) := by
    funext x
    simp only [Function.comp_apply]
    by_cases h : (x.id == bid) = true
    · rw [if_pos h]
    · rw [if_neg h]
  rw [List.find?_map, hp, hb', Option.map]
  rw [if_pos hbid]

/-- Claim C7 (amended): after recompute_batch_counters, the stored batch
counters equal the counts of the non-deleted child tasks grouped by status,
where the queued counter also absorbs pending tasks, and total equals the
number of non-deleted child tasks that are not cancelled: cancelled tasks are
excluded from every counter, including total. -/
theorem recompute_counters_amended (s : Store) (bid : Nat) (b : Batch)
    (hb : getBatch (recompute_batch_counters s bid) bid = some b) :
    b.completed = ((s.tasks.filter (fun t => t.batch_id == bid && t.deleted_at == none)).filter
      (fun t => t.status == TaskStatus.completed)).length ∧
    b.failed = ((s.tasks.filter (fun t => t.batch_id == bid && t.deleted_at == none)).filter
      (fun t => t.status == TaskStatus.failed)).length ∧
    b.running = ((s.tasks.filter (fun t => t.batch_id == bid && t.deleted_at == none)).filter
      (fun t => t.status == TaskStatus.running)).length ∧
    b.queued = ((s.tasks.filter (fun t => t.batch_id == bid && t.deleted_at == none)).filter
      (fun t => t.status == TaskStatus.queued)).length
      + ((s.tasks.filter (fun t => t.batch_id == bid && t.deleted_at == none)).filter
      (fun t => t.status == TaskStatus.pending)).length ∧
    b.total = ((s.tasks.filter (fun t => t.batch_id == bid && t.deleted_at == none)).filter
      (fun t => !(t.status == TaskStatus.cancelled))).length := by
  cases hb0 : getBatch s bid with
  | none =>
    have : recompute_batch_counters s bid = s := by
      unfold recompute_batch_counters
      rw [hb0]
    rw [this] at hb
    rw [hb0] at hb
    cases hb
  | some b0 =>
    rw [getBatch_recompute_eq s bid b0 hb0] at hb
    injection hb with hb
    subst hb
    refine ⟨rfl, rfl, rfl, rfl, ?_⟩
    exact status_partition _

/-- Concrete store for the C7 amended witness: batch 0 with stale counters and
two children, one cancelled and one completed. -/
def c7w_task1 : Task :=
  { id := 1, batch_id := 0, user_id := 1, prompt := "p", model := "sora-2-all",
    orientation := "portrait", size := "small", duration := 10,
    status := TaskStatus.cancelled, error_summary := none, result_path := none,
    deleted_at := none, updated_at := 0 }

def c7w_task2 : Task :=
  { id := 2, batch_id := 0, user_id := 1, prompt := "p", model := "sora-2-all",
    orientation := "portrait", size := "small", duration := 10,
    status := TaskStatus.completed, error_summary := none, result_path := some "r",
    deleted_at := none, updated_at := 0 }

def c7w_batch : Batch :=
  { id := 0, user_id := 1, prompt := "p", model := "sora-2-all",
    orientation := "portrait", size := "small", duration := 10, num_videos := 2,
    total := 9, completed := 9, failed := 9, running := 9, queued := 9, deleted_at := none }

def c7w_store : Store :=
  { batches := [c7w_batch], tasks := [c7w_task1, c7w_task2], txns := [], idem_keys := [] }

def c7w_out : Batch :=
  { c7w_batch with total := 1, completed := 1, failed := 0, running := 0, queued := 0 }

/-- Concrete instance of the amended C7: on the two-child batch the recomputed
total equals the count of non-deleted, non-cancelled children. -/
theorem recompute_counters_amended_witness :
    c7w_out.total = ((c7w_store.tasks.filter
      (fun t => t.batch_id == 0 && t.deleted_at == none)).filter
      (fun t => !(t.status == TaskStatus.cancelled))).length :=
  (recompute_counters_amended c7w_store 0 c7w_out (by decide)).2.2.2.2

/-- Concrete trace for the C7 counterexample: grant credits, create a batch of
one task, cancel the task. -/
def c7_cfg : Settings :=
  { GLOBAL_CONCURRENCY := 10, PER_USER_CONCURRENCY := 10,
    MAX_BATCHES_PER_USER_PER_MINUTE := 10, IDEMPOTENCY_WINDOW_SECONDS := 60 }

def c7_req : BatchCreateRequest :=
  { prompt := "p", model := "sora-2-all", orientation := "portrait", size := "small",
    duration := 10, num_videos := 1 }

def c7_s1 : Sys := liftStore initSys (fun s => adjust_credits s 1 100 "grant" none)

def c7_s2 : Sys := (create_batch c7_cfg c7_s1 1 c7_req none 0).1

def c7_s3 : Sys := liftStore c7_s2 (fun s => cancel_task s 1 1 0)

/-- Claim C7 counterexample: in a reachable state whose last operation ended
with a counter recompute, the batch holds one non-deleted child task (a
cancelled one) while its stored total is 0, so total does not equal the
number of non-deleted child tasks and the counters do not partition them. -/
theorem recompute_counters_counterexample :
    Reachable c7_cfg c7_s3 ∧
    (getBatch c7_s3.store 0).map Batch.total = some 0 ∧
    (c7_s3.store.tasks.filter (fun t => t.batch_id == 0 && t.deleted_at == none)).length = 1 := by
  refine ⟨?_, by decide, by decide⟩
  exact Reachable.step
    (Reachable.step
      (Reachable.step Reachable.init (Step.adjust initSys 1 100 "grant" none))
      (Step.createBatch c7_s1 1 c7_req none 0))
    (Step.cancel c7_s2 1 1 0)

/- ------------------------------------------------------------------ -/
/- Claims C2 and C10: idempotency replay.                              -/
/- ------------------------------------------------------------------ -/

/-- Replay behaviour of app.create_batch: when a stored idempotency key
matching the supplied key exists, was created inside the replay window and
points at an existing batch, the call returns that batch id and performs no
store mutation; only the in-memory rate limiter history advances. -/
theorem create_batch_replay (cfg : Settings) (sys : Sys) (uid : Nat)
    (req : BatchCreateRequest) (k : String) (now : Int) (e : IdempotencyKey) (bid : Nat)
    (b : Batch)
    (hnum : ¬ (req.num_videos = 0 ∨ 50 < req.num_videos))
    (hprompt : ¬ (py_strip req.prompt = ""))
    (hlen : ¬ (10000 < (py_strip req.prompt).length))
    (hrate : ¬ (cfg.MAX_BATCHES_PER_USER_PER_MINUTE ≤
      (((List.lookup uid sys.rate_events).getD []).dropWhile (fun ts => 60 < now - ts)).length))
    (hfind : sys.store.idem_keys.find? (fun x => x.key == k) = some e)
    (hwin : now - cfg.IDEMPOTENCY_WINDOW_SECONDS < e.created_at)
    (hbid : e.batch_id = some bid)
    (hb : getBatch sys.store bid = some b) :
    (create_batch cfg sys uid req (some k) now).2 = ApiResult.ok b.id ∧
    (create_batch cfg sys uid req (some k) now).1.store = sys.store ∧
    (create_batch cfg sys uid req (some k) now).1.queue = sys.queue ∧
    (create_batch cfg sys uid req (some k) now).1.execs = sys.execs ∧
    (create_batch cfg sys uid req (some k) now).1.global_running = sys.global_running ∧
    (create_batch cfg sys uid req (some k) now).1.next_id = sys.next_id := by
  unfold create_batch
  rw [if_neg hnum]
  simp only []
  rw [if_neg hprompt, if_neg hlen, if_neg hrate]
  simp only [hfind]
  rw [if_pos hwin]
  simp only [hbid, hb]
  simp

/-- On a fresh idempotency key that passes validation and the rate limiter,
create_batch reduces to its admission tail over the system with the rate
event recorded. -/
theorem create_batch_to_core (cfg : Settings) (sys : Sys) (uid : Nat)
    (req : BatchCreateRequest) (k : String) (now : Int)
    (hnum : ¬ (req.num_videos = 0 ∨ 50 < req.num_videos))
    (hprompt : ¬ (py_strip req.prompt = ""))
    (hlen : ¬ (10000 < (py_strip req.prompt).length))
    (hrate : ¬ (cfg.MAX_BATCHES_PER_USER_PER_MINUTE ≤
      (((List.lookup uid sys.rate_events).getD []).dropWhile (fun ts => 60 < now - ts)).length))
    (hkey : sys.store.idem_keys.find? (fun x => x.key == k) = none) :
    create_batch cfg sys uid req (some k) now =
      create_batch_core
        { sys with rate_events :=
            (uid, ((List.lookup uid sys.rate_events).getD []).dropWhile (fun ts => 60 < now - ts)
              ++ [now]) :: sys.rate_events }
        uid req (py_strip req.prompt) (some k) now := by
  unfold create_batch
  rw [if_neg hnum]
  simp only []
  rw [if_neg hprompt, if_neg hlen, if_neg hrate]
  simp only [hkey]

/-- Successful admission tail: the resulting system appends one batch row, the
idempotency key record, one debit transaction and the task rows, enqueues the
new task ids and bumps next_id. -/
theorem create_batch_core_success (sys : Sys) (uid : Nat) (req : BatchCreateRequest)
    (prompt : String) (k : String) (now : Int)
    (hmodel : model_constraints_ok req.model req.duration req.size = true)
    (hdur : duration_check_ok req.duration = true)
    (hcred : ¬ (get_user_credits sys.store uid <
      get_unit_cost req.model req.duration (some req.size) * req.num_videos)) :
    create_batch_core sys uid req prompt (some k) now =
      ({ sys with
          store := recompute_batch_counters
            { batches := sys.store.batches ++
                [{ id := sys.next_id, user_id := uid, prompt := prompt, model := req.model,
                   orientation := req.orientation, size := req.size, duration := req.duration,
                   num_videos := req.num_videos, total := req.num_videos,
                   completed := 0, failed := 0, running := 0, queued := 0, deleted_at := none }],
              tasks := sys.store.tasks ++
                ((List.range req.num_videos).map (fun i => sys.next_id + 1 + i)).map (fun tid =>
                  ({ id := tid, batch_id := sys.next_id, user_id := uid, prompt := prompt,
                     model := req.model, orientation := req.orientation, size := req.size,
                     duration := req.duration, status := TaskStatus.queued,
                     error_summary := none, result_path := none, deleted_at := none,
                     updated_at := now } : Task)),
              txns := sys.store.txns ++
                [{ user_id := uid,
                   delta := -(get_unit_cost req.model req.duration (some req.size)
                     * req.num_videos),
                   reason := "deduct_for_batch:" ++ toString sys.next_id,
                   ref_batch_id := some sys.next_id, ref_task_id := none }],
              idem_keys := sys.store.idem_keys ++
                [{ key := k, user_id := uid, created_at := now,
                   batch_id := some sys.next_id }] }
            sys.next_id,
          queue := sys.queue ++ (List.range req.num_videos).map (fun i => sys.next_id + 1 + i),
          next_id := sys.next_id + 1 + req.num_videos },
       ApiResult.ok sys.next_id) := by
  unfold create_batch_core
  rw [if_neg (by simp [hmodel])]
  simp only []
  rw [if_neg hcred]
  rw [if_pos hdur]

theorem recompute_batches_length (s : Store) (bid : Nat) :
    (recompute_batch_counters s bid).batches.length = s.batches.length := by
  unfold recompute_batch_counters
  split
  · rfl
  · simp

theorem find?_batches_append_self (l : List Batch) (b : Batch) (bid : Nat)
    (hfresh : ∀ x ∈ l, ¬ (x.id = bid)) (hb : b.id = bid) :
    (l ++ [b]).find? (fun x => x.id == bid) = some b := by
  rw [List.find?_append, List.find?_eq_none.2 (fun x hx => by simp [hfresh x hx])]
  simp [hb]

theorem find?_keys_append_self (l : List IdempotencyKey) (e : IdempotencyKey) (k : String)
    (hnone : l.find? (fun x => x.key == k) = none) (he : e.key = k) :
    (l ++ [e]).find? (fun x => x.key == k) = some e := by
  rw [List.find?_append, hnone]
  simp [he]

/-- Claim C2: submitting the same request twice under one idempotency key,
with the second call inside the replay window, produces exactly one batch,
one debit transaction and one set of task rows; the second call returns the
first batch id unchanged and performs no store mutation. The hypothesis hdur
is the tasks-table CHECK constraint ck_duration_values: the first submission
can only succeed and create its task rows when the duration is insertable. -/
theorem debit_once_under_replay (cfg : Settings) (s0 : Sys) (uid : Nat)
    (req : BatchCreateRequest) (k : String) (now0 now2 : Int)
    (hnum : ¬ (req.num_videos = 0 ∨ 50 < req.num_videos))
    (hprompt : ¬ (py_strip req.prompt = ""))
    (hlen : ¬ (10000 < (py_strip req.prompt).length))
    (hrate1 : ¬ (cfg.MAX_BATCHES_PER_USER_PER_MINUTE ≤
      (((List.lookup uid s0.rate_events).getD []).dropWhile (fun ts => 60 < now0 - ts)).length))
    (hkey0 : s0.store.idem_keys.find? (fun x => x.key == k) = none)
    (hmodel : model_constraints_ok req.model req.duration req.size = true)
    (hdur : duration_check_ok req.duration = true)
    (hcred : ¬ (get_user_credits s0.store uid <
      get_unit_cost req.model req.duration (some req.size) * req.num_videos))
    (hfresh : ∀ b ∈ s0.store.batches, ¬ (b.id = s0.next_id))
    (hrate2 : ¬ (cfg.MAX_BATCHES_PER_USER_PER_MINUTE ≤
      (((List.lookup uid (create_batch cfg s0 uid req (some k) now0).1.rate_events).getD
        []).dropWhile (fun ts => 60 < now2 - ts)).length))
    (hwin : now2 - cfg.IDEMPOTENCY_WINDOW_SECONDS < now0) :
    (create_batch cfg s0 uid req (some k) now0).2 = ApiResult.ok s0.next_id ∧
    (create_batch cfg s0 uid req (some k) now0).1.store.txns.length
      = s0.store.txns.length + 1 ∧
    (create_batch cfg s0 uid req (some k) now0).1.store.batches.length
      = s0.store.batches.length + 1 ∧
    (create_batch cfg s0 uid req (some k) now0).1.store.tasks.length
      = s0.store.tasks.length + req.num_videos ∧
    (create_batch cfg (create_batch cfg s0 uid req (some k) now0).1 uid req (some k) now2).2
      = ApiResult.ok s0.next_id ∧
    (create_batch cfg (create_batch cfg s0 uid req (some k) now0).1 uid req (some k) now2).1.store
      = (create_batch cfg s0 uid req (some k) now0).1.store ∧
    (create_batch cfg (create_batch cfg s0 uid req (some k) now0).1 uid req (some k) now2).1.queue
      = (create_batch cfg s0 uid req (some k) now0).1.queue := by
  have hshape := (create_batch_to_core cfg s0 uid req k now0 hnum hprompt hlen hrate1 hkey0).trans
    (create_batch_core_success _ uid req (py_strip req.prompt) k now0 hmodel hdur hcred)
  have f1 : (create_batch cfg s0 uid req (some k) now0).2 = ApiResult.ok s0.next_id := by
    rw [hshape]
  have f2 : (create_batch cfg s0 uid req (some k) now0).1.store.txns.length
      = s0.store.txns.length + 1 := by
    rw [hshape]
    show (recompute_batch_counters _ _).txns.length = _
    rw [recompute_txns]
    simp
  have f3 : (create_batch cfg s0 uid req (some k) now0).1.store.batches.length
      = s0.store.batches.length + 1 := by
    rw [hshape]
    show (recompute_batch_counters _ _).batches.length = _
    rw [recompute_batches_length]
    simp
  have f4 : (create_batch cfg s0 uid req (some k) now0).1.store.tasks.length
      = s0.store.tasks.length + req.num_videos := by
    rw [hshape]
    show (recompute_batch_counters _ _).tasks.length = _
    rw [recompute_tasks]
    simp
  have hfind2 : (create_batch cfg s0 uid req (some k) now0).1.store.idem_keys.find?
      (fun x => x.key == k)
      = some { key := k, user_id := uid, created_at := now0, batch_id := some s0.next_id } := by
    rw [hshape]
    show (recompute_batch_counters _ _).idem_keys.find? _ = _
    rw [recompute_idem_keys]
    exact find?_keys_append_self _ _ _ hkey0 rfl
  obtain ⟨B2, hb2, hB2id⟩ : ∃ B2,
      getBatch (create_batch cfg s0 uid req (some k) now0).1.store s0.next_id = some B2 ∧
      B2.id = s0.next_id := by
    rw [hshape]
    have hpre : getBatch
        { batches := s0.store.batches ++
            [{ id := s0.next_id, user_id := uid, prompt := py_strip req.prompt,
               model := req.model, orientation := req.orientation, size := req.size,
               duration := req.duration, num_videos := req.num_videos,
               total := req.num_videos, completed := 0, failed := 0, running := 0,
               queued := 0, deleted_at := none }],
          tasks := s0.store.tasks ++
            ((List.range req.num_videos).map (fun i => s0.next_id + 1 + i)).map (fun tid =>
              ({ id := tid, batch_id := s0.next_id, user_id := uid,
                 prompt := py_strip req.prompt, model := req.model,
                 orientation := req.orientation, size := req.size, duration := req.duration,
                 status := TaskStatus.queued, error_summary := none, result_path := none,
                 deleted_at := none, updated_at := now0 } : Task)),
          txns := s0.store.txns ++
            [{ user_id := uid,
               delta := -(get_unit_cost req.model req.duration (some req.size)
                 * req.num_videos),
               reason := "deduct_for_batch:" ++ toString s0.next_id,
               ref_batch_id := some s0.next_id, ref_task_id := none }],
          idem_keys := s0.store.idem_keys ++
            [{ key := k, user_id := uid, created_at := now0,
               batch_id := some s0.next_id }] } s0.next_id = some _ :=
      find?_batches_append_self s0.store.batches _ s0.next_id hfresh rfl
    exact ⟨_, getBatch_recompute_eq _ _ _ hpre, rfl⟩
  have hrep := create_batch_replay cfg (create_batch cfg s0 uid req (some k) now0).1 uid req k
    now2 { key := k, user_id := uid, created_at := now0, batch_id := some s0.next_id }
    s0.next_id B2 hnum hprompt hlen hrate2 hfind2 hwin rfl hb2
  refine ⟨f1, f2, f3, f4, ?_, hrep.2.1, hrep.2.2.1⟩
  rw [hrep.1, hB2id]

/-- Concrete first and replayed submission for the C2 witness. -/
def c2_cfg : Settings :=
  { GLOBAL_CONCURRENCY := 10, PER_USER_CONCURRENCY := 10,
    MAX_BATCHES_PER_USER_PER_MINUTE := 10, IDEMPOTENCY_WINDOW_SECONDS := 60 }

def c2_store0 : Store :=
  { batches := [], tasks := [],
    txns := [{ user_id := 1, delta := 100, reason := "grant", ref_batch_id := none,
               ref_task_id := none }],
    idem_keys := [] }

def c2_s0 : Sys :=
  { store := c2_store0, queue := [], global_running := 0, user_running := [], execs := [],
    rate_events := [], next_id := 0 }

def c2_req : BatchCreateRequest :=
  { prompt := "p", model := "sora-2-all", orientation := "portrait", size := "small",
    duration := 10, num_videos := 2 }

/-- Concrete instance of C2: the first submission creates batch 0 and one
debit; the replay 30 seconds later returns batch 0 again and leaves the
store untouched. -/
theorem debit_once_under_replay_witness :
    (create_batch c2_cfg c2_s0 1 c2_req (some "idem-1") 0).2 = ApiResult.ok 0 ∧
    (create_batch c2_cfg c2_s0 1 c2_req (some "idem-1") 0).1.store.txns.length = 2 ∧
    (create_batch c2_cfg (create_batch c2_cfg c2_s0 1 c2_req (some "idem-1") 0).1 1 c2_req
      (some "idem-1") 30).2 = ApiResult.ok 0 ∧
    (create_batch c2_cfg (create_batch c2_cfg c2_s0 1 c2_req (some "idem-1") 0).1 1 c2_req
      (some "idem-1") 30).1.store
      = (create_batch c2_cfg c2_s0 1 c2_req (some "idem-1") 0).1.store := by
  have h := debit_once_under_replay c2_cfg c2_s0 1 c2_req "idem-1" 0 30 (by decide) (by decide)
    (by decide) (by decide) (by decide) (by decide) (by decide) (by decide) (by decide)
    (by decide) (by decide)
  exact ⟨h.1, h.2.1, h.2.2.2.2.1, h.2.2.2.2.2.1⟩

/-- Claim C10: the idempotency replay lookup matches on the key alone, with no
user scoping: when user ub submits under a key recorded for user ua (who owns
the stored batch), the call returns ua's batch id, mutates nothing in the
store and charges ub nothing. -/
theorem idempotency_key_global_namespace (cfg : Settings) (sys : Sys) (ua ub : Nat)
    (req : BatchCreateRequest) (k : String) (now : Int) (e : IdempotencyKey) (bid : Nat)
    (b : Batch)
    (hnum : ¬ (req.num_videos = 0 ∨ 50 < req.num_videos))
    (hprompt : ¬ (py_strip req.prompt = ""))
    (hlen : ¬ (10000 < (py_strip req.prompt).length))
    (hrate : ¬ (cfg.MAX_BATCHES_PER_USER_PER_MINUTE ≤
      (((List.lookup ub sys.rate_events).getD []).dropWhile (fun ts => 60 < now - ts)).length))
    (hfind : sys.store.idem_keys.find? (fun x => x.key == k) = some e)
    (_howner : e.user_id = ua)
    (_hbowner : b.user_id = ua)
    (_hne : ub ≠ ua)
    (hwin : now - cfg.IDEMPOTENCY_WINDOW_SECONDS < e.created_at)
    (hbid : e.batch_id = some bid)
    (hb : getBatch sys.store bid = some b) :
    (create_batch cfg sys ub req (some k) now).2 = ApiResult.ok b.id ∧
    (create_batch cfg sys ub req (some k) now).1.store = sys.store ∧
    get_user_credits (create_batch cfg sys ub req (some k) now).1.store ub
      = get_user_credits sys.store ub := by
  have h := create_batch_replay cfg sys ub req k now e bid b hnum hprompt hlen hrate hfind hwin
    hbid hb
  exact ⟨h.1, h.2.1, by rw [h.2.1]⟩

/-- Concrete cross-user replay for the C10 witness: the key was recorded by
user 1 for batch 0; user 2 replays it. -/
def c10_cfg : Settings :=
  { GLOBAL_CONCURRENCY := 10, PER_USER_CONCURRENCY := 10,
    MAX_BATCHES_PER_USER_PER_MINUTE := 10, IDEMPOTENCY_WINDOW_SECONDS := 60 }

def c10_batch : Batch :=
  { id := 0, user_id := 1, prompt := "p", model := "sora-2-all", orientation := "portrait",
    size := "small", duration := 10, num_videos := 1, total := 1, completed := 0, failed := 0,
    running := 0, queued := 1, deleted_at := none }

def c10_store : Store :=
  { batches := [c10_batch], tasks := [],
    txns := [{ user_id := 1, delta := -10, reason := "deduct_for_batch:0",
               ref_batch_id := some 0, ref_task_id := none }],
    idem_keys := [{ key := "kk", user_id := 1, created_at := 0, batch_id := some 0 }] }

def c10_sys : Sys :=
  { store := c10_store, queue := [], global_running := 0, user_running := [], execs := [],
    rate_events := [], next_id := 5 }

def c10_req : BatchCreateRequest :=
  { prompt := "q", model := "sora-2-all", orientation := "portrait", size := "small",
    duration := 10, num_videos := 1 }

/-- Concrete instance of C10: user 2 submits under the key of user 1 inside
the window and receives user 1's batch id with no store change. -/
theorem idempotency_key_global_namespace_witness :
    (create_batch c10_cfg c10_sys 2 c10_req (some "kk") 30).2 = ApiResult.ok 0 ∧
    (create_batch c10_cfg c10_sys 2 c10_req (some "kk") 30).1.store = c10_sys.store := by
  have h := idempotency_key_global_namespace c10_cfg c10_sys 1 2 c10_req "kk" 30
    { key := "kk", user_id := 1, created_at := 0, batch_id := some 0 } 0 c10_batch
    (by decide) (by decide) (by decide) (by decide) (by decide) rfl rfl (by decide) (by decide)
    rfl (by decide)
  exact ⟨h.1, h.2.1⟩

/- ------------------------------------------------------------------ -/
/- Claim C1: refund exclusivity, an inductive invariant over steps.    -/
/- ------------------------------------------------------------------ -/

/-- Number of positive transactions in a ledger referencing a given task. -/
def posRefCount (txns : List CreditTransaction) (tid : Nat) : Nat :=
  (txns.filter (fun c => c.ref_task_id == some tid && decide (0 < c.delta))).length

/-- Every positive transaction referencing a task belongs to that task's
owner; this is what makes the user-scoped dedup query of the refund paths a
complete check. -/
def RefundLinked (s : Store) : Prop :=
  ∀ c ∈ s.txns, ∀ tid : Nat, c.ref_task_id = some tid → 0 < c.delta →
    ∃ t, getTask s tid = some t ∧ c.user_id = t.user_id

/-- At most one positive transaction references any task. -/
def RefundUnique (s : Store) : Prop := ∀ tid, posRefCount s.txns tid ≤ 1

/-- The combined ledger invariant. -/
def LedgerInv (s : Store) : Prop := RefundLinked s ∧ RefundUnique s

theorem find?_append_left {α : Type} {p : α → Bool} {l₁ : List α} (l₂ : List α) {a : α}
    (h : l₁.find? p = some a) : (l₁ ++ l₂).find? p = some a := by
  rw [List.find?_append, h]
  rfl

/-- The ledger invariant only inspects tasks and transactions. -/
theorem ledgerInv_of_eq (s s' : Store) (htasks : s'.tasks = s.tasks)
    (htxns : s'.txns = s.txns) (h : LedgerInv s) : LedgerInv s' := by
  refine ⟨?_, ?_⟩
  · intro c hc tid href hpos
    rw [htxns] at hc
    obtain ⟨t, hfind, huser⟩ := h.1 c hc tid href hpos
    refine ⟨t, ?_, huser⟩
    unfold getTask at hfind ⊢
    rw [htasks]
    exact hfind
  · intro tid
    rw [htxns]
    exact h.2 tid

/-- Rewriting every task row through an id and owner preserving map keeps the
ledger invariant. -/
theorem ledgerInv_map_tasks (s : Store) (g : Task → Task)
    (hid : ∀ t, (g t).id = t.id) (huser : ∀ t, (g t).user_id = t.user_id)
    (h : LedgerInv s) : LedgerInv { s with tasks := s.tasks.map g } := by
  refine ⟨?_, h.2⟩
  intro c hc tid href hpos
  obtain ⟨t, hfind, huser'⟩ := h.1 c hc tid href hpos
  refine ⟨g t, ?_, by rw [huser', huser]⟩
  unfold getTask at hfind ⊢
  show (s.tasks.map g).find? (fun x => x.id == tid) = some (g t)
  have hp : ((fun x : Task => x.id == tid) ∘ g) = (fun x : Task => x.id == tid) := by
    funext x
    simp [Function.comp_apply, hid]
  rw [List.find?_map, hp, hfind]
  rfl

/-- updateTask with an id and owner preserving f keeps the ledger invariant. -/
theorem ledgerInv_updateTask (s : Store) (tid : Nat) (f : Task → Task)
    (hid : ∀ t, (f t).id = t.id) (huser : ∀ t, (f t).user_id = t.user_id)
    (h : LedgerInv s) : LedgerInv (updateTask s tid f) := by
  have := ledgerInv_map_tasks s (fun t => if t.id == tid then f t else t)
    (fun t => by by_cases hb : (t.id == tid) = true <;> simp [hb, hid])
    (fun t => by by_cases hb : (t.id == tid) = true <;> simp [hb, huser]) h
  exact this

/-- Appending task rows keeps the invariant: lookups stay left biased. -/
theorem ledgerInv_append_tasks (s : Store) (new : List Task) (h : LedgerInv s) :
    LedgerInv { s with tasks := s.tasks ++ new } := by
  refine ⟨?_, h.2⟩
  intro c hc tid href hpos
  obtain ⟨t, hfind, huser⟩ := h.1 c hc tid href hpos
  exact ⟨t, find?_append_left new hfind, huser⟩

/-- recompute_batch_counters keeps the invariant: it writes batches only. -/
theorem ledgerInv_recompute (s : Store) (bid : Nat) (h : LedgerInv s) :
    LedgerInv (recompute_batch_counters s bid) :=
  ledgerInv_of_eq s _ (recompute_tasks s bid) (recompute_txns s bid) h

/-- Appending one transaction with no task reference keeps the invariant,
whatever else happens to batches, new task rows and idempotency keys. -/
theorem ledgerInv_extend (s : Store) (A : List Batch) (newT : List Task)
    (c : CreditTransaction) (D : List IdempotencyKey) (hc : c.ref_task_id = none)
    (h : LedgerInv s) :
    LedgerInv { batches := A, tasks := s.tasks ++ newT, txns := s.txns ++ [c],
                idem_keys := D } := by
  refine ⟨?_, ?_⟩
  · intro c' hc' tid href hpos
    rcases List.mem_append.1 hc' with hold | hnew
    · obtain ⟨t, hfind, huser⟩ := h.1 c' hold tid href hpos
      exact ⟨t, find?_append_left newT hfind, huser⟩
    · have : c' = c := by simpa using hnew
      subst this
      rw [hc] at href
      cases href
  · intro tid
    unfold posRefCount
    rw [List.filter_append]
    have : List.filter (fun x => x.ref_task_id == some tid && decide (0 < x.delta)) [c]
        = [] := by
      simp [hc]
    rw [this, List.append_nil]
    exact h.2 tid

theorem posRefCount_append_single (txns : List CreditTransaction) (c : CreditTransaction)
    (tid : Nat) :
    posRefCount (txns ++ [c]) tid = posRefCount txns tid +
      (if (c.ref_task_id == some tid && decide (0 < c.delta)) = true then 1 else 0) := by
  unfold posRefCount
  rw [List.filter_append, List.length_append]
  congr 1
  by_cases hb : (c.ref_task_id == some tid && decide (0 < c.delta)) = true
  · simp [List.filter, hb]
  · simp [List.filter, hb]

/-- The guarded refund insert of add_refund keeps the invariant: the guard is
user scoped, but RefundLinked makes it complete for the task. -/
theorem ledgerInv_add_refund (s : Store) (uid tid bid : Nat) (amount : Int) (tcur : Task)
    (htask : getTask s tid = some tcur) (huid : tcur.user_id = uid)
    (h : LedgerInv s) :
    LedgerInv { s with txns := add_refund s.txns uid tid bid amount } := by
  unfold add_refund
  by_cases hguard : has_positive_refund s.txns uid tid = true
  · rw [if_pos hguard]
    exact h
  · rw [if_neg hguard]
    have hcount0 : posRefCount s.txns tid = 0 := by
      unfold posRefCount
      rw [List.length_eq_zero]
      rw [List.filter_eq_nil_iff]
      intro c hc hcpos
      simp only [Bool.and_eq_true, beq_iff_eq, decide_eq_true_eq] at hcpos
      obtain ⟨t, hfind, huser⟩ := h.1 c hc tid hcpos.1 hcpos.2
      rw [htask] at hfind
      injection hfind with hfind
      subst hfind
      apply hguard
      unfold has_positive_refund
      rw [List.any_eq_true]
      refine ⟨c, hc, ?_⟩
      simp [huser, huid, hcpos.1, hcpos.2]
    refine ⟨?_, ?_⟩
    · intro c' hc' tid' href hpos
      rcases List.mem_append.1 hc' with hold | hnew
      · obtain ⟨t, hfind, huser⟩ := h.1 c' hold tid' href hpos
        exact ⟨t, hfind, huser⟩
      · obtain rfl := List.mem_singleton.1 hnew
        injection href with href
        subst href
        exact ⟨tcur, htask, huid.symm⟩
    · intro tid'
      rw [posRefCount_append_single]
      by_cases htid : tid' = tid
      · subst htid
        rw [hcount0]
        split <;> omega
      · split
        next hcond =>
          exfalso
          simp only [Bool.and_eq_true, beq_iff_eq, decide_eq_true_eq] at hcond
          exact htid (by injection hcond.1 with hh; exact hh.symm)
        next =>
          have := h.2 tid'
          omega

theorem foldl_preserve {α β : Type} (P : α → Prop) (f : α → β → α)
    (hf : ∀ a b, P a → P (f a b)) : ∀ (l : List β) (a : α), P a → P (l.foldl f a) := by
  intro l
  induction l with
  | nil => intro a ha; exact ha
  | cons b l ih => intro a ha; exact ih (f a b) (hf a b ha)

theorem ledgerInv_append_nonref (s : Store) (c : CreditTransaction)
    (hc : c.ref_task_id = none) (h : LedgerInv s) :
    LedgerInv { s with txns := s.txns ++ [c] } := by
  refine ⟨?_, ?_⟩
  · intro c' hc' tid href hpos
    rcases List.mem_append.1 hc' with hold | hnew
    · exact h.1 c' hold tid href hpos
    · obtain rfl := List.mem_singleton.1 hnew
      rw [hc] at href
      cases href
  · intro tid
    rw [posRefCount_append_single]
    have := h.2 tid
    split
    next hcond =>
      rw [hc] at hcond
      simp at hcond
    next => omega

/-- Appending one transaction with no task reference keeps the invariant when
the task table is untouched, whatever happens to batches and idempotency
keys: the shape of the aborted admission on an IntegrityError. -/
theorem ledgerInv_extend_notasks (s : Store) (A : List Batch)
    (c : CreditTransaction) (D : List IdempotencyKey) (hc : c.ref_task_id = none)
    (h : LedgerInv s) :
    LedgerInv { batches := A, tasks := s.tasks, txns := s.txns ++ [c], idem_keys := D } :=
  ledgerInv_of_eq { s with txns := s.txns ++ [c] } _ rfl rfl (ledgerInv_append_nonref s c hc h)

theorem ledgerInv_claim_update (s : Store) (tid : Nat) (now : Int) (h : LedgerInv s) :
    LedgerInv (claim_update s tid now).1 := by
  rw [claim_update_fst]
  refine ledgerInv_map_tasks s _ ?_ ?_ h
  · intro t
    by_cases hc : claim_eligible tid t = true <;> simp [hc]
  · intro t
    by_cases hc : claim_eligible tid t = true <;> simp [hc]

theorem ledgerInv_worker_tick (cfg : Settings) (sys : Sys) (now : Int)
    (h : LedgerInv sys.store) : LedgerInv (worker_tick cfg sys now).store := by
  simp only [worker_tick]
  repeat' split
  all_goals first
    | exact h
    | exact ledgerInv_claim_update sys.store _ now h

theorem ledgerInv_exec_cancel_check (sys : Sys) (e : ExecUnit) (h : LedgerInv sys.store) :
    LedgerInv (exec_cancel_check sys e).store := by
  unfold exec_cancel_check
  repeat' split
  all_goals exact h

theorem ledgerInv_exec_success (sys : Sys) (e : ExecUnit) (url : String) (now : Int)
    (h : LedgerInv sys.store) : LedgerInv (exec_success sys e url now).store := by
  unfold exec_success
  split
  · exact h
  · exact ledgerInv_recompute _ _
      (ledgerInv_updateTask _ _ _ (fun t => rfl) (fun t => rfl) h)

theorem ledgerInv_exec_failure (sys : Sys) (e : ExecUnit) (msg : String) (now : Int)
    (h : LedgerInv sys.store) : LedgerInv (exec_failure sys e msg now).store := by
  unfold exec_failure
  cases htask : getTask sys.store e.task_id with
  | none => exact h
  | some task =>
    have hupd : getTask (updateTask sys.store e.task_id (fun t =>
        { t with status := TaskStatus.failed, error_summary := some (py_take msg 500),
                 updated_at := now })) e.task_id = some
        { task with status := TaskStatus.failed, error_summary := some (py_take msg 500),
                    updated_at := now } :=
      getTask_updateTask_self (fun t =>
        ({ t with status := TaskStatus.failed, error_summary := some (py_take msg 500),
                  updated_at := now })) (fun t => rfl) htask
    have h1 := ledgerInv_updateTask sys.store e.task_id (fun t =>
      { t with status := TaskStatus.failed, error_summary := some (py_take msg 500),
               updated_at := now }) (fun t => rfl) (fun t => rfl) h
    have h2 := ledgerInv_add_refund _ task.user_id e.task_id task.batch_id
      (get_unit_cost task.model task.duration none) _ hupd rfl h1
    exact ledgerInv_recompute _ _ h2

theorem ledgerInv_cancel_task (s : Store) (tid uid : Nat) (now : Int) (h : LedgerInv s) :
    LedgerInv (cancel_task s tid uid now) := by
  unfold cancel_task
  repeat' split
  all_goals first
    | exact h
    | exact ledgerInv_recompute _ _
        (ledgerInv_updateTask _ _ _ (fun t => rfl) (fun t => rfl) h)

theorem ledgerInv_retry_task (sys : Sys) (tid uid : Nat) (now : Int)
    (h : LedgerInv sys.store) : LedgerInv (retry_task sys tid uid now).store := by
  unfold retry_task
  repeat' split
  all_goals first
    | exact h
    | exact ledgerInv_recompute _ _
        (ledgerInv_updateTask _ _ _ (fun t => rfl) (fun t => rfl) h)

theorem ledgerInv_delete_task (s : Store) (tid uid : Nat) (now : Int) (h : LedgerInv s) :
    LedgerInv (delete_task s tid uid now) := by
  unfold delete_task
  repeat' split
  all_goals first
    | exact h
    | exact ledgerInv_recompute _ _
        (ledgerInv_updateTask _ _ _ (fun t => rfl) (fun t => rfl) h)

theorem ledgerInv_delete_batch (s : Store) (bid uid : Nat) (now : Int) (h : LedgerInv s) :
    LedgerInv (delete_batch s bid uid now) := by
  unfold delete_batch
  repeat' split
  all_goals first
    | exact h
    | exact ledgerInv_of_eq _ _ rfl rfl
        (ledgerInv_map_tasks s _ (fun t => by
            by_cases hb : (t.batch_id == bid) = true <;> simp [hb])
          (fun t => by by_cases hb : (t.batch_id == bid) = true <;> simp [hb]) h)

theorem ledgerInv_adjust (s : Store) (uid : Nat) (delta : Int) (reason : String)
    (refBatch : Option Nat) (h : LedgerInv s) :
    LedgerInv (adjust_credits s uid delta reason refBatch) := by
  unfold adjust_credits
  split
  · exact h
  · exact ledgerInv_append_nonref s _ rfl h

theorem ledgerInv_sweep_one (now : Int) (acc : Store × Bool) (tid : Nat)
    (h : LedgerInv acc.1) : LedgerInv (sweep_one now acc tid).1 := by
  simp only [sweep_one]
  split
  · exact h
  · rename_i t0 htask
    by_cases hheal : (t0.result_path ≠ none ∧ t0.status ≠ TaskStatus.completed)
    · rw [if_pos hheal]
      split
      · rename_i hstale
        exfalso
        simp at hstale
      · exact ledgerInv_updateTask _ _ _ (fun t => rfl) (fun t => rfl) h
    · rw [if_neg hheal]
      split
      · rename_i hstale
        have hupd : getTask (updateTask acc.1 tid (fun x =>
            { x with status := TaskStatus.failed,
                     error_summary := some (py_or_str x.error_summary "运行超时"),
                     updated_at := now })) tid = some
            { t0 with status := TaskStatus.failed,
                      error_summary := some (py_or_str t0.error_summary "运行超时"),
                      updated_at := now } :=
          getTask_updateTask_self (fun x =>
            ({ x with status := TaskStatus.failed,
                      error_summary := some (py_or_str x.error_summary "运行超时"),
                      updated_at := now })) (fun t => rfl) htask
        have h1 := ledgerInv_updateTask acc.1 tid (fun x =>
          { x with status := TaskStatus.failed,
                   error_summary := some (py_or_str x.error_summary "运行超时"),
                   updated_at := now }) (fun t => rfl) (fun t => rfl) h
        exact ledgerInv_add_refund _ t0.user_id tid t0.batch_id
          (get_unit_cost t0.model t0.duration (some t0.size)) _ hupd rfl h1
      · exact h

theorem ledgerInv_sweep (s : Store) (bid : Nat) (now : Int) (h : LedgerInv s) :
    LedgerInv (list_tasks_sweep s bid now) := by
  simp only [list_tasks_sweep]
  have hfold := foldl_preserve (fun (acc : Store × Bool) => LedgerInv acc.1) (sweep_one now)
    (fun a b ha => ledgerInv_sweep_one now a b ha)
    ((s.tasks.filter (fun t => t.batch_id == bid && t.deleted_at == none)).map (fun t => t.id))
    (s, false) h
  split
  · exact ledgerInv_recompute _ _ hfold
  · exact hfold

theorem ledgerInv_create_batch_core (sys : Sys) (uid : Nat) (req : BatchCreateRequest)
    (prompt : String) (idem : Option String) (now : Int) (h : LedgerInv sys.store) :
    LedgerInv (create_batch_core sys uid req prompt idem now).1.store := by
  simp only [create_batch_core]
  cases idem with
  | some k =>
    repeat' split
    all_goals first
      | exact h
      | exact ledgerInv_recompute _ _ (ledgerInv_extend sys.store _ _ _ _ rfl h)
      | exact ledgerInv_extend_notasks sys.store _ _ _ rfl h
  | none =>
    repeat' split
    all_goals first
      | exact h
      | exact ledgerInv_recompute _ _ (ledgerInv_extend sys.store _ _ _ _ rfl h)
      | exact ledgerInv_extend_notasks sys.store _ _ _ rfl h

theorem ledgerInv_create_batch (cfg : Settings) (sys : Sys) (uid : Nat)
    (req : BatchCreateRequest) (idem : Option String) (now : Int) (h : LedgerInv sys.store) :
    LedgerInv (create_batch cfg sys uid req idem now).1.store := by
  simp only [create_batch]
  split
  · exact h
  · split
    · exact h
    · split
      · exact h
      · split
        · exact h
        · split
          · split
            · split
              · split
                · split
                  · exact h
                  · exact h
                · exact h
              · exact ledgerInv_create_batch_core _ uid req _ _ now h
            · exact ledgerInv_create_batch_core _ uid req _ _ now h
          · exact ledgerInv_create_batch_core _ uid req _ _ now h

/-- Every system step preserves the ledger invariant. -/
theorem ledgerInv_step {cfg : Settings} {s s' : Sys} (hstep : Step cfg s s')
    (h : LedgerInv s.store) : LedgerInv s'.store := by
  cases hstep with
  | createBatch uid req idem now => exact ledgerInv_create_batch cfg s uid req idem now h
  | tick now => exact ledgerInv_worker_tick cfg s now h
  | checkCancel e he hi => exact ledgerInv_exec_cancel_check s e h
  | execOk e url now he hi => exact ledgerInv_exec_success s e url now h
  | execFail e msg now he hi => exact ledgerInv_exec_failure s e msg now h
  | cancel tid uid now => exact ledgerInv_cancel_task s.store tid uid now h
  | retry tid uid now => exact ledgerInv_retry_task s tid uid now h
  | deleteTask tid uid now => exact ledgerInv_delete_task s.store tid uid now h
  | deleteBatch bid uid now => exact ledgerInv_delete_batch s.store bid uid now h
  | sweep bid now => exact ledgerInv_sweep s.store bid now h
  | adjust uid delta reason refBatch =>
      exact ledgerInv_adjust s.store uid delta reason refBatch h

/-- The ledger invariant holds in every reachable state. -/
theorem ledgerInv_reachable (cfg : Settings) (s : Sys) (hreach : Reachable cfg s) :
    LedgerInv s.store := by
  induction hreach with
  | init =>
    constructor
    · intro c hc
      cases hc
    · intro tid
      exact Nat.le_succ 0
  | step _ hst ih => exact ledgerInv_step hst ih

/-- Claim C1: in every reachable state, at most one credit transaction with
positive delta references any given task, however many times the failure
refund path or the reconciliation sweep ran: both paths check for an existing
positive transaction with the same task reference before inserting. -/
theorem refund_exclusive (cfg : Settings) (s : Sys) (hreach : Reachable cfg s) (tid : Nat) :
    posRefCount s.store.txns tid ≤ 1 :=
  (ledgerInv_reachable cfg s hreach).2 tid

/-- Concrete instance of C1: the refund count bound in the state reached by
an admin credit grant step. -/
theorem refund_exclusive_witness :
    posRefCount (liftStore initSys (fun st =>
      adjust_credits st 1 100 "grant" none)).store.txns 0 ≤ 1 :=
  refund_exclusive
    { GLOBAL_CONCURRENCY := 10, PER_USER_CONCURRENCY := 10,
      MAX_BATCHES_PER_USER_PER_MINUTE := 10, IDEMPOTENCY_WINDOW_SECONDS := 60 }
    (liftStore initSys (fun st => adjust_credits st 1 100 "grant" none))
    (Reachable.step Reachable.init (Step.adjust initSys 1 100 "grant" none)) 0

/- ------------------------------------------------------------------ -/
/- Claim C5: the ledger is append-only and balance is the delta sum.   -/
/- ------------------------------------------------------------------ -/

/-- The transaction table of b extends that of a by a suffix. -/
def txns_extend (a b : Store) : Prop := ∃ new, b.txns = a.txns ++ new

theorem txns_extend_refl (a : Store) : txns_extend a a := ⟨[], by simp⟩

theorem txns_extend_trans {a b c : Store} : txns_extend a b → txns_extend b c →
    txns_extend a c
  | ⟨n1, h1⟩, ⟨n2, h2⟩ => ⟨n1 ++ n2, by rw [h2, h1, List.append_assoc]⟩

theorem txns_extend_of_eq {a b : Store} (h : b.txns = a.txns) : txns_extend a b :=
  ⟨[], by simp [h]⟩

theorem add_refund_extends (s0 : List CreditTransaction) (uid tid bid : Nat) (amount : Int) :
    ∃ new, add_refund s0 uid tid bid amount = s0 ++ new := by
  unfold add_refund
  split
  · exact ⟨[], by simp⟩
  · exact ⟨_, rfl⟩

theorem txns_extend_core (sys : Sys) (uid : Nat) (req : BatchCreateRequest) (prompt : String)
    (idem : Option String) (now : Int) :
    txns_extend sys.store (create_batch_core sys uid req prompt idem now).1.store := by
  simp only [create_batch_core]
  split
  · exact txns_extend_refl _
  · split
    · exact txns_extend_refl _
    · cases idem with
      | some k =>
        split
        · exact ⟨_, by rw [recompute_txns]⟩
        · exact ⟨_, rfl⟩
      | none =>
        split
        · exact ⟨_, by rw [recompute_txns]⟩
        · exact ⟨_, rfl⟩

theorem txns_extend_create_batch (cfg : Settings) (sys : Sys) (uid : Nat)
    (req : BatchCreateRequest) (idem : Option String) (now : Int) :
    txns_extend sys.store (create_batch cfg sys uid req idem now).1.store := by
  simp only [create_batch]
  split
  · exact txns_extend_refl _
  · split
    · exact txns_extend_refl _
    · split
      · exact txns_extend_refl _
      · split
        · exact txns_extend_refl _
        · split
          · split
            · split
              · split
                · split
                  · exact txns_extend_refl _
                  · exact txns_extend_refl _
                · exact txns_extend_refl _
              · exact txns_extend_core _ uid req _ _ now
            · exact txns_extend_core _ uid req _ _ now
          · exact txns_extend_core _ uid req _ _ now

theorem txns_extend_sweep_one (now : Int) (acc : Store × Bool) (tid : Nat) :
    txns_extend acc.1 (sweep_one now acc tid).1 := by
  simp only [sweep_one]
  split
  · exact txns_extend_refl _
  · rename_i t0 htask
    by_cases hheal : (t0.result_path ≠ none ∧ t0.status ≠ TaskStatus.completed)
    · rw [if_pos hheal]
      split
      · obtain ⟨new, hnew⟩ := add_refund_extends acc.1.txns t0.user_id tid t0.batch_id
          (get_unit_cost t0.model t0.duration (some t0.size))
        exact ⟨new, hnew⟩
      · exact txns_extend_of_eq rfl
    · rw [if_neg hheal]
      split
      · obtain ⟨new, hnew⟩ := add_refund_extends acc.1.txns t0.user_id tid t0.batch_id
          (get_unit_cost t0.model t0.duration (some t0.size))
        exact ⟨new, hnew⟩
      · exact txns_extend_of_eq rfl

theorem txns_extend_sweep (s : Store) (bid : Nat) (now : Int) :
    txns_extend s (list_tasks_sweep s bid now) := by
  simp only [list_tasks_sweep]
  have hfold := foldl_preserve (fun (acc : Store × Bool) => txns_extend s acc.1)
    (sweep_one now) (fun a b ha => txns_extend_trans ha (txns_extend_sweep_one now a b))
    ((s.tasks.filter (fun t => t.batch_id == bid && t.deleted_at == none)).map (fun t => t.id))
    (s, false) (txns_extend_refl s)
  split
  · exact txns_extend_trans hfold (txns_extend_of_eq (by rw [recompute_txns]))
  · exact hfold

/-- Every system step only appends to the credit transaction table: no
operation updates or deletes a ledger row. -/
theorem txns_extend_step {cfg : Settings} {s s' : Sys} (hstep : Step cfg s s') :
    txns_extend s.store s'.store := by
  cases hstep with
  | createBatch uid req idem now => exact txns_extend_create_batch cfg s uid req idem now
  | tick now =>
    simp only [worker_tick]
    repeat' split
    all_goals exact txns_extend_of_eq rfl
  | checkCancel e he hi =>
    simp only [exec_cancel_check]
    repeat' split
    all_goals exact txns_extend_of_eq rfl
  | execOk e url now he hi =>
    simp only [exec_success, finish_exec]
    split
    · exact txns_extend_of_eq rfl
    · exact txns_extend_of_eq (by rw [recompute_txns]; rfl)
  | execFail e msg now he hi =>
    simp only [exec_failure, finish_exec]
    split
    · exact txns_extend_of_eq rfl
    · rename_i task htask
      obtain ⟨new, hnew⟩ := add_refund_extends s.store.txns task.user_id e.task_id
        task.batch_id (get_unit_cost task.model task.duration none)
      exact ⟨new, by rw [recompute_txns]; exact hnew⟩
  | cancel tid uid now =>
    simp only [liftStore, cancel_task]
    repeat' split
    all_goals first
      | exact txns_extend_of_eq rfl
      | exact txns_extend_of_eq (by rw [recompute_txns]; rfl)
  | retry tid uid now =>
    simp only [retry_task]
    repeat' split
    all_goals first
      | exact txns_extend_of_eq rfl
      | exact txns_extend_of_eq (by rw [recompute_txns]; rfl)
  | deleteTask tid uid now =>
    simp only [liftStore, delete_task]
    repeat' split
    all_goals first
      | exact txns_extend_of_eq rfl
      | exact txns_extend_of_eq (by rw [recompute_txns]; rfl)
  | deleteBatch bid uid now =>
    simp only [liftStore, delete_batch]
    repeat' split
    all_goals exact txns_extend_of_eq rfl
  | sweep bid now => exact txns_extend_sweep s.store bid now
  | adjust uid delta reason refBatch =>
    simp only [liftStore, adjust_credits]
    split
    · exact txns_extend_refl _
    · exact ⟨_, rfl⟩

/-- Claim C5: across every operation the ledger only grows by appended
transactions, the balance change of every user is exactly the delta sum of
the appended transactions, and every balance read is computed as the sum of
delta over the stored transactions of that user (there is no stored balance
field anywhere in the state). -/
theorem balance_is_sum_of_deltas (cfg : Settings) (s s' : Sys) (hstep : Step cfg s s') :
    (∃ new, s'.store.txns = s.store.txns ++ new ∧
      ∀ uid, get_user_credits s'.store uid = get_user_credits s.store uid +
        ((new.filter (fun c => c.user_id == uid)).map (fun c => c.delta)).sum) ∧
    (∀ uid, get_user_credits s'.store uid =
      ((s'.store.txns.filter (fun c => c.user_id == uid)).map (fun c => c.delta)).sum) := by
  refine ⟨?_, fun uid => rfl⟩
  obtain ⟨new, hnew⟩ := txns_extend_step hstep
  refine ⟨new, hnew, fun uid => ?_⟩
  unfold get_user_credits
  rw [hnew, List.filter_append, List.map_append, List.sum_append]

/-- Concrete instance of C5 on an admin credit grant step. -/
theorem balance_is_sum_of_deltas_witness :
    ∃ new, (liftStore initSys (fun st => adjust_credits st 1 100 "grant" none)).store.txns
      = initSys.store.txns ++ new ∧
      ∀ uid, get_user_credits (liftStore initSys (fun st =>
          adjust_credits st 1 100 "grant" none)).store uid
        = get_user_credits initSys.store uid +
          ((new.filter (fun c => c.user_id == uid)).map (fun c => c.delta)).sum :=
  (balance_is_sum_of_deltas
    { GLOBAL_CONCURRENCY := 10, PER_USER_CONCURRENCY := 10,
      MAX_BATCHES_PER_USER_PER_MINUTE := 10, IDEMPOTENCY_WINDOW_SECONDS := 60 }
    initSys _ (Step.adjust initSys 1 100 "grant" none)).1

/- ------------------------------------------------------------------ -/
/- Claim C8: the task status transition graph.                         -/
/- ------------------------------------------------------------------ -/

/-- The transition graph of the specification: pending to queued to running to
the three terminal outcomes, failed back to queued on retry, and cancel from
pending, queued or running. -/
def spec_edge : TaskStatus → TaskStatus → Bool
  | .pending, .queued => true
  | .queued, .running => true
  | .running, .completed => true
  | .running, .failed => true
  | .running, .cancelled => true
  | .failed, .queued => true
  | .pending, .cancelled => true
  | .queued, .cancelled => true
  | _, _ => false

/-- The amended transition property: either a graph edge, or a claim from
pending (the conditional claim accepts pending as well as queued), or an
unconditional outcome write landing in completed or failed. -/
def amended_edge (a b : TaskStatus) : Prop :=
  spec_edge a b = true ∨ (a = TaskStatus.pending ∧ b = TaskStatus.running) ∨
  b = TaskStatus.completed ∨ b = TaskStatus.failed

/-- A single write either keeps the status or lands in completed or failed. -/
def status_outcome (a b : TaskStatus) : Prop :=
  a = b ∨ b = TaskStatus.completed ∨ b = TaskStatus.failed

theorem getTask_map_tasks (s : Store) (g : Task → Task) (hid : ∀ t, (g t).id = t.id)
    (tid : Nat) :
    getTask { s with tasks := s.tasks.map g } tid = (getTask s tid).map g := by
  unfold getTask
  have hp : ((fun x : Task => x.id == tid) ∘ g) = (fun x : Task => x.id == tid) := by
    funext x
    simp [Function.comp_apply, hid]
  show (s.tasks.map g).find? _ = _
  rw [List.find?_map, hp]

theorem status_eq_of_getTask_eq {s1 s2 : Store} (hts : s2.tasks = s1.tasks) {tid : Nat}
    {t t' : Task} (ht : getTask s1 tid = some t) (ht' : getTask s2 tid = some t') : t = t' := by
  unfold getTask at ht ht'
  rw [hts, ht] at ht'
  injection ht'

theorem status_change_updateTask (s : Store) (tid0 : Nat) (f : Task → Task)
    (hid : ∀ x, (f x).id = x.id) (tid : Nat) (t t' : Task)
    (ht : getTask s tid = some t)
    (ht' : getTask (updateTask s tid0 f) tid = some t')
    (hne : t.status ≠ t'.status) : (t.id == tid0) = true ∧ t' = f t := by
  rw [getTask_updateTask s tid0 f hid tid, ht] at ht'
  simp only [Option.map] at ht'
  by_cases hb : (t.id == tid0) = true
  · rw [if_pos hb] at ht'
    injection ht' with ht'
    exact ⟨hb, ht'.symm⟩
  · rw [if_neg hb] at ht'
    injection ht' with ht'
    exact absurd (by rw [ht']) hne

theorem status_change_map_tasks (s : Store) (g : Task → Task)
    (hid : ∀ x, (g x).id = x.id) (tid : Nat) (t t' : Task)
    (ht : getTask s tid = some t)
    (ht' : getTask { s with tasks := s.tasks.map g } tid = some t') : t' = g t := by
  rw [getTask_map_tasks s g hid tid, ht] at ht'
  injection ht' with ht'
  exact ht'.symm

theorem getTask_updateTask_none (s : Store) (tid0 : Nat) (f : Task → Task) (tid : Nat)
    (h : getTask s tid = none) (hid : ∀ t, (f t).id = t.id) :
    getTask (updateTask s tid0 f) tid = none := by
  rw [getTask_updateTask s tid0 f hid tid, h]
  rfl

theorem sweep_one_none (now : Int) (acc : Store × Bool) (tid0 tid : Nat)
    (h : getTask acc.1 tid = none) : getTask (sweep_one now acc tid0).1 tid = none := by
  simp only [sweep_one]
  split
  · exact h
  · rename_i t0 htask
    by_cases hheal : (t0.result_path ≠ none ∧ t0.status ≠ TaskStatus.completed)
    · rw [if_pos hheal]
      split
      · exact getTask_updateTask_none _ _ _ _
          (getTask_updateTask_none _ _ _ _ h (fun t => rfl)) (fun t => rfl)
      · exact getTask_updateTask_none _ _ _ _ h (fun t => rfl)
    · rw [if_neg hheal]
      split
      · exact getTask_updateTask_none _ _ _ _ h (fun t => rfl)
      · exact h

theorem sweep_one_outcome (now : Int) (acc : Store × Bool) (tid0 tid : Nat) (t t' : Task)
    (ht : getTask acc.1 tid = some t) (ht' : getTask (sweep_one now acc tid0).1 tid = some t') :
    status_outcome t.status t'.status := by
  simp only [sweep_one] at ht'
  split at ht'
  · left
    exact congrArg Task.status (status_eq_of_getTask_eq rfl ht ht')
  · rename_i t0 htask
    by_cases hheal : (t0.result_path ≠ none ∧ t0.status ≠ TaskStatus.completed)
    · rw [if_pos hheal] at ht'
      split at ht'
      · rename_i hstale
        simp at hstale
      · by_cases hne : t.status = t'.status
        · exact Or.inl hne
        · have ht'2 : getTask (updateTask acc.1 tid0 (fun x =>
              { x with status := TaskStatus.completed, updated_at := now })) tid
              = some t' := ht'
          obtain ⟨_, hchg⟩ := status_change_updateTask acc.1 tid0 (fun x =>
              ({ x with status := TaskStatus.completed, updated_at := now }))
            (fun x => rfl) tid t t' ht ht'2 hne
          rw [hchg]
          right
          left
          rfl
    · rw [if_neg hheal] at ht'
      split at ht'
      · by_cases hne : t.status = t'.status
        · exact Or.inl hne
        · have ht'2 : getTask (updateTask acc.1 tid0 (fun x =>
              { x with status := TaskStatus.failed,
                       error_summary := some (py_or_str x.error_summary "运行超时"),
                       updated_at := now })) tid = some t' := ht'
          obtain ⟨_, hchg⟩ := status_change_updateTask acc.1 tid0 (fun x =>
              ({ x with status := TaskStatus.failed,
                        error_summary := some (py_or_str x.error_summary "运行超时"),
                        updated_at := now })) (fun x => rfl) tid t t' ht ht'2 hne
          rw [hchg]
          right
          right
          rfl
      · left
        exact congrArg Task.status (status_eq_of_getTask_eq rfl ht ht')

/-- Relation between sweep states: every task either stays missing, or its
status is unchanged or driven to completed or failed. -/
def sweep_rel (a b : Store × Bool) : Prop :=
  ∀ tid, (getTask a.1 tid = none → getTask b.1 tid = none) ∧
    (∀ t t', getTask a.1 tid = some t → getTask b.1 tid = some t' →
      status_outcome t.status t'.status)

theorem sweep_rel_refl (a : Store × Bool) : sweep_rel a a := by
  intro tid
  refine ⟨fun h => h, fun t t' h1 h2 => ?_⟩
  rw [h1] at h2
  injection h2 with h2
  exact Or.inl (congrArg Task.status h2)

theorem sweep_rel_trans {a b c : Store × Bool} (h1 : sweep_rel a b) (h2 : sweep_rel b c) :
    sweep_rel a c := by
  intro tid
  refine ⟨fun hn => (h2 tid).1 ((h1 tid).1 hn), fun t t' ha hc => ?_⟩
  cases hb : getTask b.1 tid with
  | none =>
    rw [(h2 tid).1 hb] at hc
    cases hc
  | some tm =>
    have o1 := (h1 tid).2 t tm ha hb
    have o2 := (h2 tid).2 tm t' hb hc
    rcases o2 with h | h | h
    · rcases o1 with g | g | g
      · exact Or.inl (g.trans h)
      · exact Or.inr (Or.inl (h ▸ g))
      · exact Or.inr (Or.inr (h ▸ g))
    · exact Or.inr (Or.inl h)
    · exact Or.inr (Or.inr h)

theorem foldl_rel {α β : Type} (R : α → α → Prop)
    (htrans : ∀ {a b c : α}, R a b → R b c → R a c) (hrefl : ∀ a, R a a)
    (f : α → β → α) (hf : ∀ a b, R a (f a b)) :
    ∀ (l : List β) (a : α), R a (l.foldl f a) := by
  intro l
  induction l with
  | nil => intro a; exact hrefl a
  | cons b l ih => intro a; exact htrans (hf a b) (ih (f a b))

theorem sweep_outcome (s : Store) (bid : Nat) (now : Int) (tid : Nat) (t t' : Task)
    (ht : getTask s tid = some t) (ht' : getTask (list_tasks_sweep s bid now) tid = some t') :
    status_outcome t.status t'.status := by
  have hrel := foldl_rel sweep_rel (fun h1 h2 => sweep_rel_trans h1 h2) sweep_rel_refl
    (sweep_one now) (fun a b => fun tid2 =>
      ⟨sweep_one_none now a b tid2, fun x x' hx hx' => sweep_one_outcome now a b tid2 x x' hx hx'⟩)
    ((s.tasks.filter (fun x => x.batch_id == bid && x.deleted_at == none)).map (fun x => x.id))
    (s, false)
  simp only [list_tasks_sweep] at ht'
  split at ht'
  · rw [getTask_recompute] at ht'
    exact (hrel tid).2 t t' ht ht'
  · exact (hrel tid).2 t t' ht ht'

theorem getTask_core_preserved (sys : Sys) (uid : Nat) (req : BatchCreateRequest)
    (prompt : String) (idem : Option String) (now : Int) (tid : Nat) (t : Task)
    (ht : getTask sys.store tid = some t) :
    getTask (create_batch_core sys uid req prompt idem now).1.store tid = some t := by
  simp only [create_batch_core]
  split
  · exact ht
  · split
    · exact ht
    · cases idem with
      | some k =>
        split
        · rw [getTask_recompute]
          exact find?_append_left _ ht
        · exact ht
      | none =>
        split
        · rw [getTask_recompute]
          exact find?_append_left _ ht
        · exact ht

theorem getTask_create_batch_preserved (cfg : Settings) (sys : Sys) (uid : Nat)
    (req : BatchCreateRequest) (idem : Option String) (now : Int) (tid : Nat) (t : Task)
    (ht : getTask sys.store tid = some t) :
    getTask (create_batch cfg sys uid req idem now).1.store tid = some t := by
  simp only [create_batch]
  split
  · exact ht
  · split
    · exact ht
    · split
      · exact ht
      · split
        · exact ht
        · split
          · split
            · split
              · split
                · split
                  · exact ht
                  · exact ht
                · exact ht
              · exact getTask_core_preserved _ uid req _ _ now tid t ht
            · exact getTask_core_preserved _ uid req _ _ now tid t ht
          · exact getTask_core_preserved _ uid req _ _ now tid t ht

/-- Claim C8 (amended): every status change made by any single operation
either follows an edge of the specification graph, or is the conditional
claim admitting a pending task straight to running, or is one of the
unconditional outcome writes (remote success or failure handling and the
reconciler result heal), which always land in completed or failed without
re-checking the current status. -/
theorem task_transitions_amended (cfg : Settings) (s s' : Sys) (hstep : Step cfg s s')
    (tid : Nat) (t t' : Task)
    (ht : getTask s.store tid = some t) (ht' : getTask s'.store tid = some t')
    (hne : t.status ≠ t'.status) : amended_edge t.status t'.status := by
  cases hstep with
  | createBatch uid req idem now =>
    rw [getTask_create_batch_preserved cfg s uid req idem now tid t ht] at ht'
    injection ht' with ht'
    exact absurd (congrArg Task.status ht') hne
  | tick now =>
    simp only [worker_tick] at ht'
    split at ht'
    · exact absurd (congrArg Task.status (status_eq_of_getTask_eq rfl ht ht')) hne
    · rename_i tid0 rest hq
      split at ht'
      · exact absurd (congrArg Task.status (status_eq_of_getTask_eq rfl ht ht')) hne
      · rename_i task0 htask0
        split at ht'
        · exact absurd (congrArg Task.status (status_eq_of_getTask_eq rfl ht ht')) hne
        · split at ht'
          · exact absurd (congrArg Task.status (status_eq_of_getTask_eq rfl ht ht')) hne
          · have hclaim : ∀ (hcl : getTask (claim_update s.store tid0 now).1 tid = some t'),
                amended_edge t.status t'.status := by
              intro hcl
              rw [claim_update_fst] at hcl
              have hchg := status_change_map_tasks s.store _ (fun x => by
                  by_cases hc : claim_eligible tid0 x = true <;> simp [hc]) tid t t' ht hcl
              beta_reduce at hchg
              by_cases hc : claim_eligible tid0 t = true
              · rw [if_pos hc] at hchg
                have hst : t.status = TaskStatus.pending ∨ t.status = TaskStatus.queued := by
                  unfold claim_eligible at hc
                  simp only [Bool.and_eq_true, Bool.or_eq_true, beq_iff_eq] at hc
                  exact hc.2
                rw [hchg]
                rcases hst with h | h
                · exact Or.inr (Or.inl ⟨h, rfl⟩)
                · exact Or.inl (by rw [h]; rfl)
              · rw [if_neg hc] at hchg
                exact absurd (congrArg Task.status hchg.symm) hne
            split at ht'
            · exact hclaim ht'
            · exact hclaim ht'
  | checkCancel e he hi =>
    simp only [exec_cancel_check, finish_exec] at ht'
    split at ht'
    · exact absurd (congrArg Task.status (status_eq_of_getTask_eq rfl ht ht')) hne
    · split at ht'
      · exact absurd (congrArg Task.status (status_eq_of_getTask_eq rfl ht ht')) hne
      · exact absurd (congrArg Task.status (status_eq_of_getTask_eq rfl ht ht')) hne
  | execOk e url now he hi =>
    simp only [exec_success, finish_exec] at ht'
    split at ht'
    · exact absurd (congrArg Task.status (status_eq_of_getTask_eq rfl ht ht')) hne
    · rw [getTask_recompute] at ht'
      have ht'2 : getTask (updateTask s.store e.task_id (fun x =>
          { x with result_path := some url, status := TaskStatus.completed,
                   updated_at := now })) tid = some t' := ht'
      obtain ⟨_, hchg⟩ := status_change_updateTask s.store e.task_id (fun x =>
          ({ x with result_path := some url, status := TaskStatus.completed,
                    updated_at := now })) (fun x => rfl) tid t t' ht ht'2 hne
      rw [hchg]
      exact Or.inr (Or.inr (Or.inl rfl))
  | execFail e msg now he hi =>
    simp only [exec_failure, finish_exec] at ht'
    split at ht'
    · exact absurd (congrArg Task.status (status_eq_of_getTask_eq rfl ht ht')) hne
    · rw [getTask_recompute] at ht'
      have ht'2 : getTask (updateTask s.store e.task_id (fun x =>
          { x with status := TaskStatus.failed, error_summary := some (py_take msg 500),
                   updated_at := now })) tid = some t' := ht'
      obtain ⟨_, hchg⟩ := status_change_updateTask s.store e.task_id (fun x =>
          ({ x with status := TaskStatus.failed, error_summary := some (py_take msg 500),
                    updated_at := now })) (fun x => rfl) tid t t' ht ht'2 hne
      rw [hchg]
      exact Or.inr (Or.inr (Or.inr rfl))
  | cancel tid0 uid now =>
    simp only [liftStore, cancel_task] at ht'
    split at ht'
    · exact absurd (congrArg Task.status (status_eq_of_getTask_eq rfl ht ht')) hne
    · rename_i t0 htask0
      split at ht'
      · rename_i hguard
        rw [getTask_recompute] at ht'
        have ht'2 : getTask (updateTask s.store tid0 (fun x =>
            { x with status := TaskStatus.cancelled, updated_at := now })) tid = some t' := ht'
        obtain ⟨hb, hchg⟩ := status_change_updateTask s.store tid0 (fun x =>
            ({ x with status := TaskStatus.cancelled, updated_at := now }))
          (fun x => rfl) tid t t' ht ht'2 hne
        have htt : t.id = tid := by
          simpa using List.find?_some
            (show s.store.tasks.find? (fun x => x.id == tid) = some t from ht)
        have heq0 : tid = tid0 := by
          rw [← htt]
          simpa using hb
        subst heq0
        rw [ht] at htask0
        injection htask0 with htask0
        subst htask0
        rw [hchg]
        left
        rcases hguard.2 with h | h | h <;> rw [h] <;> rfl
      · exact absurd (congrArg Task.status (status_eq_of_getTask_eq rfl ht ht')) hne
  | retry tid0 uid now =>
    simp only [retry_task] at ht'
    split at ht'
    · exact absurd (congrArg Task.status (status_eq_of_getTask_eq rfl ht ht')) hne
    · rename_i t0 htask0
      split at ht'
      · rename_i hguard
        rw [getTask_recompute] at ht'
        have ht'2 : getTask (updateTask s.store tid0 (fun x =>
            { x with status := TaskStatus.queued, error_summary := none,
                     updated_at := now })) tid = some t' := ht'
        obtain ⟨hb, hchg⟩ := status_change_updateTask s.store tid0 (fun x =>
            ({ x with status := TaskStatus.queued, error_summary := none,
                      updated_at := now })) (fun x => rfl) tid t t' ht ht'2 hne
        have htt : t.id = tid := by
          simpa using List.find?_some
            (show s.store.tasks.find? (fun x => x.id == tid) = some t from ht)
        have heq0 : tid = tid0 := by
          rw [← htt]
          simpa using hb
        subst heq0
        rw [ht] at htask0
        injection htask0 with htask0
        subst htask0
        rw [hchg]
        left
        rw [hguard.2]
        rfl
      · exact absurd (congrArg Task.status (status_eq_of_getTask_eq rfl ht ht')) hne
  | deleteTask tid0 uid now =>
    simp only [liftStore, delete_task] at ht'
    split at ht'
    · exact absurd (congrArg Task.status (status_eq_of_getTask_eq rfl ht ht')) hne
    · rename_i t0 htask0
      split at ht'
      · rw [getTask_recompute] at ht'
        have ht'2 : getTask (updateTask s.store tid0 (fun x =>
            { x with deleted_at := some now,
                     status := if x.status = TaskStatus.pending ∨ x.status = TaskStatus.queued
                               then TaskStatus.cancelled else x.status,
                     updated_at := now })) tid = some t' := ht'
        obtain ⟨hb, hchg⟩ := status_change_updateTask s.store tid0 (fun x =>
            ({ x with deleted_at := some now,
                      status := if x.status = TaskStatus.pending ∨ x.status = TaskStatus.queued
                                then TaskStatus.cancelled else x.status,
                      updated_at := now })) (fun x => rfl) tid t t' ht ht'2 hne
        by_cases hpq : (t.status = TaskStatus.pending ∨ t.status = TaskStatus.queued)
        · rw [hchg]
          left
          rcases hpq with h | h <;> rw [h] <;> rfl
        · have hts : t'.status = t.status := by
            rw [hchg]
            show (if (t.status = TaskStatus.pending ∨ t.status = TaskStatus.queued)
                  then TaskStatus.cancelled else t.status) = t.status
            exact if_neg hpq
          exact absurd hts.symm hne
      · exact absurd (congrArg Task.status (status_eq_of_getTask_eq rfl ht ht')) hne
  | deleteBatch bid uid now =>
    simp only [liftStore, delete_batch] at ht'
    split at ht'
    · exact absurd (congrArg Task.status (status_eq_of_getTask_eq rfl ht ht')) hne
    · split at ht'
      · have hchg := status_change_map_tasks s.store (fun x =>
            if x.batch_id == bid then
              { x with deleted_at := some now,
                       status := if x.status = TaskStatus.pending ∨ x.status = TaskStatus.queued
                                 then TaskStatus.cancelled else x.status,
                       updated_at := now }
            else x) (fun x => by
              by_cases hbx : (x.batch_id == bid) = true <;> simp [hbx]) tid t t' ht ht'
        beta_reduce at hchg
        by_cases hbt : (t.batch_id == bid) = true
        · rw [if_pos hbt] at hchg
          by_cases hpq : (t.status = TaskStatus.pending ∨ t.status = TaskStatus.queued)
          · rw [hchg]
            left
            rcases hpq with h | h <;> rw [h] <;> rfl
          · have hts : t'.status = t.status := by
              rw [hchg]
              show (if (t.status = TaskStatus.pending ∨ t.status = TaskStatus.queued)
                    then TaskStatus.cancelled else t.status) = t.status
              exact if_neg hpq
            exact absurd hts.symm hne
        · rw [if_neg hbt] at hchg
          exact absurd (congrArg Task.status hchg.symm) hne
      · exact absurd (congrArg Task.status (status_eq_of_getTask_eq rfl ht ht')) hne
  | sweep bid now =>
    have ho := sweep_outcome s.store bid now tid t t' ht ht'
    rcases ho with h | h | h
    · exact absurd h hne
    · exact Or.inr (Or.inr (Or.inl h))
    · exact Or.inr (Or.inr (Or.inr h))
  | adjust uid delta reason refBatch =>
    simp only [liftStore, adjust_credits] at ht'
    split at ht'
    · exact absurd (congrArg Task.status (status_eq_of_getTask_eq rfl ht ht')) hne
    · exact absurd (congrArg Task.status (status_eq_of_getTask_eq rfl ht ht')) hne

/-- Concrete trace for the C8 counterexample: a task is admitted, claimed and
its remote call issued; the user then cancels it, and the still in-flight
execution fails afterwards. -/
def c8_cfg : Settings :=
  { GLOBAL_CONCURRENCY := 10, PER_USER_CONCURRENCY := 10,
    MAX_BATCHES_PER_USER_PER_MINUTE := 10, IDEMPOTENCY_WINDOW_SECONDS := 60 }

def c8_req : BatchCreateRequest :=
  { prompt := "p", model := "sora-2-all", orientation := "portrait", size := "small",
    duration := 10, num_videos := 1 }

def c8_s1 : Sys := liftStore initSys (fun st => adjust_credits st 1 100 "grant" none)

def c8_s2 : Sys := (create_batch c8_cfg c8_s1 1 c8_req none 0).1

def c8_s3 : Sys := worker_tick c8_cfg c8_s2 0

def c8_unit : ExecUnit := { task_id := 1, user_id := 1, issued := false }

def c8_s4 : Sys := exec_cancel_check c8_s3 c8_unit

def c8_s5 : Sys := liftStore c8_s4 (fun st => cancel_task st 1 1 1)

def c8_s6 : Sys := exec_failure c8_s5 { c8_unit with issued := true } "provider timeout" 2

/-- Claim C8 counterexample: in a reachable state, the failure handler of an
execution whose remote call was issued before the user cancel moves the task
from cancelled to failed, an edge outside the specified transition graph, so
the claim as stated is false. -/
theorem task_transitions_counterexample :
    Reachable c8_cfg c8_s5 ∧
    Step c8_cfg c8_s5 c8_s6 ∧
    (getTask c8_s5.store 1).map Task.status = some TaskStatus.cancelled ∧
    (getTask c8_s6.store 1).map Task.status = some TaskStatus.failed ∧
    spec_edge TaskStatus.cancelled TaskStatus.failed = false := by
  refine ⟨?_, ?_, by decide, by decide, by decide⟩
  · exact Reachable.step (Reachable.step (Reachable.step (Reachable.step
      (Reachable.step Reachable.init (Step.adjust initSys 1 100 "grant" none))
      (Step.createBatch c8_s1 1 c8_req none 0)) (Step.tick c8_s2 0))
      (Step.checkCancel c8_s3 c8_unit (by decide) rfl)) (Step.cancel c8_s4 1 1 1)
  · exact Step.execFail c8_s5 { c8_unit with issued := true } "provider timeout" 2
      (by decide) rfl

/-- Concrete system for the witness of the amended C8: a queued task that a
user cancel moves along the queued to cancelled edge. -/
def c8w_task : Task :=
  { id := 1, batch_id := 0, user_id := 1, prompt := "p", model := "sora-2-all",
    orientation := "portrait", size := "small", duration := 10,
    status := TaskStatus.queued, error_summary := none, result_path := none,
    deleted_at := none, updated_at := 0 }

def c8w_sys : Sys :=
  { store := { batches := [], tasks := [c8w_task], txns := [], idem_keys := [] },
    queue := [], global_running := 0, user_running := [], execs := [], rate_events := [],
    next_id := 2 }

/-- Concrete instance of the amended C8 on a cancel step. -/
theorem task_transitions_amended_witness :
    amended_edge TaskStatus.queued TaskStatus.cancelled :=
  task_transitions_amended
    { GLOBAL_CONCURRENCY := 10, PER_USER_CONCURRENCY := 10,
      MAX_BATCHES_PER_USER_PER_MINUTE := 10, IDEMPOTENCY_WINDOW_SECONDS := 60 }
    c8w_sys _ (Step.cancel c8w_sys 1 1 5) 1 c8w_task
    { c8w_task with status := TaskStatus.cancelled, updated_at := 5 }
    (by decide) (by decide) (by decide)

/- ------------------------------------------------------------------ -/
/- Claim C4: refund amount on execution failure.                       -/
/- ------------------------------------------------------------------ -/

/-- Every stored task row passed both admission checks: the per-model
allow-list of app.create_batch and the tasks-table CHECK constraint
ck_duration_values of models.py. The only code path that inserts task rows
enforces both, and no update ever rewrites model, duration or size. -/
def TasksAdmissible (s : Store) : Prop :=
  ∀ t ∈ s.tasks, model_constraints_ok t.model t.duration t.size = true ∧
    duration_check_ok t.duration = true

/-- A task rewrite that keeps the three pricing-relevant fields. -/
def keepsPricing (g : Task → Task) : Prop :=
  ∀ t, (g t).model = t.model ∧ (g t).duration = t.duration ∧ (g t).size = t.size

theorem tasksAdmissible_of_eq (s s' : Store) (htasks : s'.tasks = s.tasks)
    (h : TasksAdmissible s) : TasksAdmissible s' := by
  intro t ht
  rw [htasks] at ht
  exact h t ht

theorem tasksAdmissible_map (s : Store) (g : Task → Task) (hg : keepsPricing g)
    (h : TasksAdmissible s) : TasksAdmissible { s with tasks := s.tasks.map g } := by
  intro t ht
  obtain ⟨x, hx, rfl⟩ := List.mem_map.1 ht
  obtain ⟨h1, h2, h3⟩ := hg x
  rw [h1, h2, h3]
  exact h x hx

theorem tasksAdmissible_updateTask (s : Store) (tid : Nat) (f : Task → Task)
    (hf : keepsPricing f) (h : TasksAdmissible s) : TasksAdmissible (updateTask s tid f) := by
  refine tasksAdmissible_map s _ ?_ h
  intro t
  by_cases hb : (t.id == tid) = true <;> simp [hb, hf t]

theorem tasksAdmissible_append (s : Store) (new : List Task)
    (hnew : ∀ t ∈ new, model_constraints_ok t.model t.duration t.size = true ∧
      duration_check_ok t.duration = true)
    (h : TasksAdmissible s) : TasksAdmissible { s with tasks := s.tasks ++ new } := by
  intro t ht
  rcases List.mem_append.1 ht with h1 | h2
  · exact h t h1
  · exact hnew t h2

theorem tasksAdmissible_recompute (s : Store) (bid : Nat) (h : TasksAdmissible s) :
    TasksAdmissible (recompute_batch_counters s bid) :=
  tasksAdmissible_of_eq s _ (recompute_tasks s bid) h

theorem tasksAdmissible_claim_update (s : Store) (tid : Nat) (now : Int)
    (h : TasksAdmissible s) : TasksAdmissible (claim_update s tid now).1 := by
  rw [claim_update_fst]
  refine tasksAdmissible_map s _ ?_ h
  intro t
  by_cases hc : claim_eligible tid t = true <;> simp [hc]

theorem tasksAdmissible_worker_tick (cfg : Settings) (sys : Sys) (now : Int)
    (h : TasksAdmissible sys.store) : TasksAdmissible (worker_tick cfg sys now).store := by
  simp only [worker_tick]
  repeat' split
  all_goals first
    | exact h
    | exact tasksAdmissible_claim_update sys.store _ now h

theorem tasksAdmissible_exec_cancel_check (sys : Sys) (e : ExecUnit)
    (h : TasksAdmissible sys.store) : TasksAdmissible (exec_cancel_check sys e).store := by
  unfold exec_cancel_check
  repeat' split
  all_goals exact h

theorem tasksAdmissible_exec_success (sys : Sys) (e : ExecUnit) (url : String) (now : Int)
    (h : TasksAdmissible sys.store) : TasksAdmissible (exec_success sys e url now).store := by
  unfold exec_success
  split
  · exact h
  · exact tasksAdmissible_recompute _ _
      (tasksAdmissible_updateTask _ _ _ (fun t => ⟨rfl, rfl, rfl⟩) h)

theorem tasksAdmissible_exec_failure (sys : Sys) (e : ExecUnit) (msg : String) (now : Int)
    (h : TasksAdmissible sys.store) : TasksAdmissible (exec_failure sys e msg now).store := by
  unfold exec_failure
  split
  · exact h
  · refine tasksAdmissible_recompute _ _ ?_
    refine tasksAdmissible_of_eq (updateTask sys.store e.task_id (fun t =>
      { t with status := TaskStatus.failed, error_summary := some (py_take msg 500),
               updated_at := now })) _ rfl ?_
    exact tasksAdmissible_updateTask _ _ _ (fun t => ⟨rfl, rfl, rfl⟩) h

theorem tasksAdmissible_cancel_task (s : Store) (tid uid : Nat) (now : Int)
    (h : TasksAdmissible s) : TasksAdmissible (cancel_task s tid uid now) := by
  unfold cancel_task
  repeat' split
  all_goals first
    | exact h
    | exact tasksAdmissible_recompute _ _
        (tasksAdmissible_updateTask _ _ _ (fun t => ⟨rfl, rfl, rfl⟩) h)

theorem tasksAdmissible_retry_task (sys : Sys) (tid uid : Nat) (now : Int)
    (h : TasksAdmissible sys.store) : TasksAdmissible (retry_task sys tid uid now).store := by
  unfold retry_task
  repeat' split
  all_goals first
    | exact h
    | exact tasksAdmissible_recompute _ _
        (tasksAdmissible_updateTask _ _ _ (fun t => ⟨rfl, rfl, rfl⟩) h)

theorem tasksAdmissible_delete_task (s : Store) (tid uid : Nat) (now : Int)
    (h : TasksAdmissible s) : TasksAdmissible (delete_task s tid uid now) := by
  unfold delete_task
  repeat' split
  all_goals first
    | exact h
    | exact tasksAdmissible_recompute _ _
        (tasksAdmissible_updateTask _ _ _ (fun t => ⟨rfl, rfl, rfl⟩) h)

theorem tasksAdmissible_delete_batch (s : Store) (bid uid : Nat) (now : Int)
    (h : TasksAdmissible s) : TasksAdmissible (delete_batch s bid uid now) := by
  unfold delete_batch
  repeat' split
  all_goals first
    | exact h
    | exact tasksAdmissible_of_eq _ _ rfl
        (tasksAdmissible_map s _ (fun t => by
          by_cases hb : (t.batch_id == bid) = true <;> simp [hb]) h)

theorem tasksAdmissible_adjust (s : Store) (uid : Nat) (delta : Int) (reason : String)
    (refBatch : Option Nat) (h : TasksAdmissible s) :
    TasksAdmissible (adjust_credits s uid delta reason refBatch) := by
  unfold adjust_credits
  split
  · exact h
  · exact tasksAdmissible_of_eq s _ rfl h

theorem tasksAdmissible_sweep_one (now : Int) (acc : Store × Bool) (tid : Nat)
    (h : TasksAdmissible acc.1) : TasksAdmissible (sweep_one now acc tid).1 := by
  simp only [sweep_one]
  split
  · exact h
  · rename_i t0 htask
    by_cases hheal : (t0.result_path ≠ none ∧ t0.status ≠ TaskStatus.completed)
    · rw [if_pos hheal]
      split
      · rename_i hstale
        exfalso
        simp at hstale
      · exact tasksAdmissible_updateTask _ _ _ (fun t => ⟨rfl, rfl, rfl⟩) h
    · rw [if_neg hheal]
      split
      · exact tasksAdmissible_of_eq (updateTask acc.1 tid (fun x =>
            { x with status := TaskStatus.failed,
                     error_summary := some (py_or_str x.error_summary "运行超时"),
                     updated_at := now })) _ rfl
          (tasksAdmissible_updateTask _ _ _ (fun t => ⟨rfl, rfl, rfl⟩) h)
      · exact h

theorem tasksAdmissible_sweep (s : Store) (bid : Nat) (now : Int) (h : TasksAdmissible s) :
    TasksAdmissible (list_tasks_sweep s bid now) := by
  simp only [list_tasks_sweep]
  have hfold := foldl_preserve (fun (acc : Store × Bool) => TasksAdmissible acc.1)
    (sweep_one now) (fun a b ha => tasksAdmissible_sweep_one now a b ha)
    ((s.tasks.filter (fun t => t.batch_id == bid && t.deleted_at == none)).map (fun t => t.id))
    (s, false) h
  split
  · exact tasksAdmissible_recompute _ _ hfold
  · exact hfold

theorem tasksAdmissible_create_batch_core (sys : Sys) (uid : Nat) (req : BatchCreateRequest)
    (prompt : String) (idem : Option String) (now : Int) (h : TasksAdmissible sys.store) :
    TasksAdmissible (create_batch_core sys uid req prompt idem now).1.store := by
  simp only [create_batch_core]
  split
  · exact h
  · rename_i hmodel
    rw [not_not] at hmodel
    split
    · exact h
    · cases idem with
      | some k =>
        split
        · rename_i hdur
          refine tasksAdmissible_recompute _ _ ?_
          refine tasksAdmissible_append _ _ ?_ (tasksAdmissible_of_eq sys.store _ rfl h)
          intro t ht
          obtain ⟨tid, htid, rfl⟩ := List.mem_map.1 ht
          exact ⟨hmodel, hdur⟩
        · exact tasksAdmissible_of_eq sys.store _ rfl h
      | none =>
        split
        · rename_i hdur
          refine tasksAdmissible_recompute _ _ ?_
          refine tasksAdmissible_append _ _ ?_ (tasksAdmissible_of_eq sys.store _ rfl h)
          intro t ht
          obtain ⟨tid, htid, rfl⟩ := List.mem_map.1 ht
          exact ⟨hmodel, hdur⟩
        · exact tasksAdmissible_of_eq sys.store _ rfl h

theorem tasksAdmissible_create_batch (cfg : Settings) (sys : Sys) (uid : Nat)
    (req : BatchCreateRequest) (idem : Option String) (now : Int)
    (h : TasksAdmissible sys.store) :
    TasksAdmissible (create_batch cfg sys uid req idem now).1.store := by
  simp only [create_batch]
  split
  · exact h
  · split
    · exact h
    · split
      · exact h
      · split
        · exact h
        · split
          · split
            · split
              · split
                · split
                  · exact h
                  · exact h
                · exact h
              · exact tasksAdmissible_create_batch_core _ uid req _ _ now h
            · exact tasksAdmissible_create_batch_core _ uid req _ _ now h
          · exact tasksAdmissible_create_batch_core _ uid req _ _ now h

/-- Every system step preserves the admissibility of the stored task rows. -/
theorem tasksAdmissible_step {cfg : Settings} {s s' : Sys} (hstep : Step cfg s s')
    (h : TasksAdmissible s.store) : TasksAdmissible s'.store := by
  cases hstep with
  | createBatch uid req idem now => exact tasksAdmissible_create_batch cfg s uid req idem now h
  | tick now => exact tasksAdmissible_worker_tick cfg s now h
  | checkCancel e he hi => exact tasksAdmissible_exec_cancel_check s e h
  | execOk e url now he hi => exact tasksAdmissible_exec_success s e url now h
  | execFail e msg now he hi => exact tasksAdmissible_exec_failure s e msg now h
  | cancel tid uid now => exact tasksAdmissible_cancel_task s.store tid uid now h
  | retry tid uid now => exact tasksAdmissible_retry_task s tid uid now h
  | deleteTask tid uid now => exact tasksAdmissible_delete_task s.store tid uid now h
  | deleteBatch bid uid now => exact tasksAdmissible_delete_batch s.store bid uid now h
  | sweep bid now => exact tasksAdmissible_sweep s.store bid now h
  | adjust uid delta reason refBatch =>
      exact tasksAdmissible_adjust s.store uid delta reason refBatch h

/-- Admissibility holds in every reachable state. -/
theorem tasksAdmissible_reachable (cfg : Settings) (s : Sys) (hreach : Reachable cfg s) :
    TasksAdmissible s.store := by
  induction hreach with
  | init =>
    intro t ht
    cases ht
  | step _ hst ih => exact tasksAdmissible_step hst ih

/-- On the admissible domain the size argument never changes the unit cost,
and the cost is positive: the veo_3_1 branch of pricing, the only
size-sensitive one, is admitted only at duration 8, which the tasks-table
CHECK constraint excludes, so every stored task prices through the sora
table, which ignores size. -/
theorem unit_cost_refund_ok (m : String) (d : Int) (sz : String)
    (hok : model_constraints_ok m d sz = true)
    (hdur : duration_check_ok d = true) :
    get_unit_cost m d none = get_unit_cost m d (some sz) ∧ 0 < get_unit_cost m d none := by
  unfold model_constraints_ok at hok
  by_cases h1 : (m == "sora-2-all") = true
  · rw [if_pos h1] at hok
    rw [beq_iff_eq] at h1
    subst h1
    simp only [Bool.and_eq_true, Bool.or_eq_true, beq_iff_eq] at hok
    obtain ⟨hd, hsz⟩ := hok
    subst hsz
    rcases hd with rfl | rfl <;> exact ⟨by decide, by decide⟩
  · rw [if_neg h1] at hok
    by_cases h2 : (m == "sora-2-pro-all") = true
    · rw [if_pos h2] at hok
      rw [beq_iff_eq] at h2
      subst h2
      simp only [Bool.and_eq_true, Bool.or_eq_true, beq_iff_eq] at hok
      obtain ⟨hd, hsz⟩ := hok
      subst hsz
      rcases hd with (rfl | rfl) | rfl <;> exact ⟨by decide, by decide⟩
    · rw [if_neg h2] at hok
      by_cases h3 : (m == "veo_3_1") = true
      · rw [if_pos h3] at hok
        simp only [Bool.and_eq_true, beq_iff_eq] at hok
        obtain ⟨hd, hsz2⟩ := hok
        subst hd
        simp [duration_check_ok] at hdur
      · rw [if_neg h3] at hok
        simp at hok

/-- The transaction table written by the failure handler: the guarded refund
keyed by the fetched task, priced with no size argument. -/
theorem exec_failure_txns (sys : Sys) (e : ExecUnit) (msg : String) (now : Int) (task : Task)
    (htask : getTask sys.store e.task_id = some task) :
    (exec_failure sys e msg now).store.txns
      = add_refund sys.store.txns task.user_id e.task_id task.batch_id
          (get_unit_cost task.model task.duration none) := by
  simp only [exec_failure, htask, finish_exec]
  rw [recompute_txns]
  rfl

/-- The task row after the failure handler ran. -/
theorem getTask_exec_failure (sys : Sys) (e : ExecUnit) (msg : String) (now : Int) (task : Task)
    (htask : getTask sys.store e.task_id = some task) :
    getTask (exec_failure sys e msg now).store e.task_id
      = some { task with status := TaskStatus.failed,
                         error_summary := some (py_take msg 500), updated_at := now } := by
  simp only [exec_failure, htask, finish_exec]
  rw [getTask_recompute]
  exact getTask_updateTask_self (fun t =>
    { t with status := TaskStatus.failed, error_summary := some (py_take msg 500),
             updated_at := now }) (fun t => rfl) htask

theorem get_user_credits_of_eq (s s' : Store) (h : s'.txns = s.txns) (uid : Nat) :
    get_user_credits s' uid = get_user_credits s uid := by
  unfold get_user_credits
  rw [h]

theorem get_user_credits_append_refund (s s' : Store) (uid : Nat)
    (c : CreditTransaction) (hc : c.user_id = uid)
    (h : s'.txns = s.txns ++ [c]) :
    get_user_credits s' uid = get_user_credits s uid + c.delta := by
  unfold get_user_credits
  rw [h, List.filter_append, List.map_append, List.sum_append]
  congr 1
  simp [List.filter, hc]

theorem has_positive_refund_append_self (txns : List CreditTransaction) (uid tid : Nat)
    (c : CreditTransaction) (hu : c.user_id = uid) (hr : c.ref_task_id = some tid)
    (hd : 0 < c.delta) :
    has_positive_refund (txns ++ [c]) uid tid = true := by
  unfold has_positive_refund
  rw [List.any_append]
  have h1 : [c].any (fun x => x.user_id == uid && x.ref_task_id == some tid
      && decide (0 < x.delta)) = true := by
    simp [hu, hr, hd]
  rw [h1, Bool.or_true]

/-- Claim C4: for every task of a reachable state whose remote execution
fails, the refund written by the failure handler of queue._execute_task
(which prices the unit as get_unit_cost(task.model, task.duration) with no
size argument) has delta equal to the per-unit amount debited at admission,
get_unit_cost(model, duration, size): the tasks-table CHECK constraint
ck_duration_values makes every size-sensitive (veo_3_1, duration 8)
combination uninsertable, so on the reachable domain the two prices
coincide. The user balance thus returns to its value before that unit's
charge, and running the failure path a second time leaves every balance
unchanged, because the dedup guard finds the first refund. -/
theorem refund_equals_admission_debit (cfg : Settings) (s : Sys) (hreach : Reachable cfg s)
    (e : ExecUnit) (msg msg2 : String) (now now2 : Int) (task : Task)
    (htask : getTask s.store e.task_id = some task)
    (hnoprior : has_positive_refund s.store.txns task.user_id e.task_id = false) :
    get_unit_cost task.model task.duration none
      = get_unit_cost task.model task.duration (some task.size) ∧
    (exec_failure s e msg now).store.txns = s.store.txns ++
      [{ user_id := task.user_id,
         delta := get_unit_cost task.model task.duration (some task.size),
         reason := "refund_task:" ++ toString e.task_id,
         ref_batch_id := some task.batch_id, ref_task_id := some e.task_id }] ∧
    get_user_credits (exec_failure s e msg now).store task.user_id
      = get_user_credits s.store task.user_id
        + get_unit_cost task.model task.duration (some task.size) ∧
    get_user_credits (exec_failure (exec_failure s e msg now) e msg2 now2).store task.user_id
      = get_user_credits (exec_failure s e msg now).store task.user_id := by
  have hmem : task ∈ s.store.tasks := by
    unfold getTask at htask
    exact List.mem_of_find?_eq_some htask
  have hadm := tasksAdmissible_reachable cfg s hreach task hmem
  obtain ⟨heq, hpos⟩ := unit_cost_refund_ok task.model task.duration task.size hadm.1 hadm.2
  have htx1 : (exec_failure s e msg now).store.txns = s.store.txns ++
      [{ user_id := task.user_id,
         delta := get_unit_cost task.model task.duration none,
         reason := "refund_task:" ++ toString e.task_id,
         ref_batch_id := some task.batch_id, ref_task_id := some e.task_id }] := by
    rw [exec_failure_txns s e msg now task htask]
    unfold add_refund
    rw [if_neg (by simp [hnoprior])]
  have htx2 : (exec_failure s e msg now).store.txns = s.store.txns ++
      [{ user_id := task.user_id,
         delta := get_unit_cost task.model task.duration (some task.size),
         reason := "refund_task:" ++ toString e.task_id,
         ref_batch_id := some task.batch_id, ref_task_id := some e.task_id }] := by
    rw [htx1, heq]
  have hguard : has_positive_refund (exec_failure s e msg now).store.txns
      task.user_id e.task_id = true := by
    rw [htx1]
    exact has_positive_refund_append_self _ _ _ _ rfl rfl hpos
  have htask2 := getTask_exec_failure s e msg now task htask
  have htx3 : (exec_failure (exec_failure s e msg now) e msg2 now2).store.txns
      = (exec_failure s e msg now).store.txns := by
    rw [exec_failure_txns (exec_failure s e msg now) e msg2 now2 _ htask2]
    unfold add_refund
    rw [if_pos hguard]
  refine ⟨heq, htx2, ?_, ?_⟩
  · exact get_user_credits_append_refund s.store _ task.user_id _ rfl htx2
  · exact get_user_credits_of_eq _ _ htx3 task.user_id

/-- Concrete trace for the C4 witness: user 1 is granted 100 credits, admits
one sora-2-all unit of duration 10 (debit 10, balance 90), the scheduler
claims the task and the unit issues its remote call. -/
def c4_cfg : Settings :=
  { GLOBAL_CONCURRENCY := 10, PER_USER_CONCURRENCY := 10,
    MAX_BATCHES_PER_USER_PER_MINUTE := 10, IDEMPOTENCY_WINDOW_SECONDS := 60 }

def c4_req : BatchCreateRequest :=
  { prompt := "p", model := "sora-2-all", orientation := "portrait", size := "small",
    duration := 10, num_videos := 1 }

def c4_s1 : Sys := liftStore initSys (fun s => adjust_credits s 1 100 "grant" none)

def c4_s2 : Sys := (create_batch c4_cfg c4_s1 1 c4_req none 0).1

def c4_s3 : Sys := worker_tick c4_cfg c4_s2 0

def c4_unit : ExecUnit := { task_id := 1, user_id := 1, issued := false }

def c4_s4 : Sys := exec_cancel_check c4_s3 c4_unit

def c4_task : Task :=
  { id := 1, batch_id := 0, user_id := 1, prompt := "p", model := "sora-2-all",
    orientation := "portrait", size := "small", duration := 10,
    status := TaskStatus.running, error_summary := none, result_path := none,
    deleted_at := none, updated_at := 0 }

/-- Scenario-B shaped instance of C4: the balance drops from 100 to 90 at
admission, the failing execution refunds exactly the admission unit cost
back to 100, and a second run of the failure path leaves it at 100. -/
theorem refund_equals_admission_debit_witness :
    get_user_credits c4_s4.store 1 = 90 ∧
    get_user_credits (exec_failure c4_s4 { c4_unit with issued := true } "boom" 5).store 1
      = 100 ∧
    get_user_credits (exec_failure (exec_failure c4_s4 { c4_unit with issued := true } "boom" 5)
      { c4_unit with issued := true } "again" 6).store 1 = 100 := by
  have hreach : Reachable c4_cfg c4_s4 :=
    Reachable.step (Reachable.step (Reachable.step (Reachable.step Reachable.init
      (Step.adjust initSys 1 100 "grant" none))
      (Step.createBatch c4_s1 1 c4_req none 0)) (Step.tick c4_s2 0))
      (Step.checkCancel c4_s3 c4_unit (by decide) rfl)
  have h := refund_equals_admission_debit c4_cfg c4_s4 hreach
    { c4_unit with issued := true } "boom" "again" 5 6 c4_task (by decide) (by decide)
  simp only [show c4_task.user_id = 1 from rfl] at h
  refine ⟨by decide, ?_, ?_⟩
  · rw [h.2.2.1]
    decide
  · rw [h.2.2.2, h.2.2.1]
    decide

end BatchVideo
